import Mathlib

/-!
# RobotCLibs / gyroLib : a shallow embedding of the gyro estimators

Two programs are embedded.

* `gyroLib2.c` (namespace `GyroLib`): the task `GyroTask` polls a pre-scaled
  gyro reading (degrees * 10), nulls slow drift, and publishes a heading and
  an unwrapped absolute angle in the global `theGyro`.
* `gyroSim.c` (namespace `GyroSim`): the task `gyroSim` calibrates a bias over
  1024 raw samples and then integrates the gated, bias-free samples.

Conventions of the embedding.

* ROBOTC `float` values are exact rationals (`ℚ`); `x / 10.0` is rational
  division.
* ROBOTC `int` and `int32_t` (`long`) values are mathematical integers; the
  one narrowing store of the programs, the 16-bit `GyroDelta`, is reduced
  explicitly by `toInt16`.
* C integer division and remainder truncate toward zero: `Int.tdiv`, `Int.tmod`.
* Where a property depends on the width of a type, the same lines are embedded
  a second time with the width explicit: the definitions named `...F32` round
  every `float` result with `roundF32`, and the definitions named `...32` store
  every `int32_t` result through `toInt32`.
* A task is a startup section followed by a loop; the loop body is a function
  from the state at the loop head and the values read during the iteration
  (`SensorValue[...]`, `nSysTime`) to the state at the next loop head.
  `wait1Msec` and the writes to `SensorType[...]` act on the scheduler and the
  sensor hardware only; they change none of the variables modelled here.
-/

namespace GyroLib

/-- The ROBOTC sensor port type `tSensors`, an index of an analog port. -/
abbrev tSensors := Nat

/-- The struct `gyroData` (gyroLib2.c lines 59-65). -/
structure gyroData where
  port : tSensors
  valid : Bool
  angle : ℚ
  abs_angle : ℚ
  drift_error : Int
deriving DecidableEq, Repr

/-- The global `theGyro` (line 68) as the C runtime leaves a zero-initialised
static. -/
def theGyroZero : gyroData :=
  { port := 0, valid := false, angle := 0, abs_angle := 0, drift_error := 0 }

/-- The constant `GYRO_DRIFT_THRESHOLD` (line 70). -/
def GYRO_DRIFT_THRESHOLD : Int := 3

/-- The global `theGyro` together with the locals of `GyroTask` that are live
at the head of its loop (lines 97-104). The locals `gyro_value` and `angle`
are assigned in every iteration before they are read and are not kept. -/
structure TaskState where
  theGyro : gyroData
  lastDriftGyro : Int
  old_angle : ℚ
  delta_angle : ℚ
  nSysTimeOffset : Int
deriving DecidableEq, Repr

/-- The values one loop iteration reads from its environment:
`SensorValue[theGyro.port]` (line 134), `nSysTime` in the window test
(line 138) and `nSysTime` when the window is restarted (line 145). -/
structure TickInput where
  gyro_value : Int
  nSysTime : Int
  nSysTimeRestart : Int
deriving DecidableEq, Repr

/-- The startup section of `GyroTask` (lines 97-128), entered with the global
`theGyro` as it stands and leaving `nSysTimeOffset` at the timer value read on
line 128. -/
def GyroTaskStart (g : gyroData) (nSysTime : Int) : TaskState :=
  { theGyro := { g with valid := false, abs_angle := 0, drift_error := 0 }
    lastDriftGyro := 0
    old_angle := 0
    delta_angle := 0
    nSysTimeOffset := nSysTime }

/-- Lines 136-146: the drift filter, checked when more than 250 ms have
passed since the last check. -/
def driftFilter (s : TaskState) (i : TickInput) : TaskState :=
  if i.nSysTime - s.nSysTimeOffset > 250 then
    { s with
      theGyro :=
        if |i.gyro_value - s.lastDriftGyro| < GYRO_DRIFT_THRESHOLD then
          { s.theGyro with
            drift_error := s.theGyro.drift_error + (s.lastDriftGyro - i.gyro_value) }
        else s.theGyro
      lastDriftGyro := i.gyro_value
      nSysTimeOffset := i.nSysTimeRestart }
  else s

/-- Lines 148-153: the float angle with the drift offset, normalised by one
conditional `+= 360`. -/
def normalizedAngle (gyro_value drift_error : Int) : ℚ :=
  let angle : ℚ := ((gyro_value + drift_error : Int) : ℚ) / 10
  if angle < 0 then angle + 360 else angle

/-- Line 156: `theGyro.angle = angle`. -/
def storeAngle (s : TaskState) (angle : ℚ) : TaskState :=
  { s with theGyro := { s.theGyro with angle := angle } }

/-- Lines 162-166: the two rollover tests, in source order. -/
def fixRollover (delta_angle : ℚ) : ℚ :=
  let d := if delta_angle > 180 then delta_angle - 360 else delta_angle
  if d < -180 then d + 360 else d

/-- Lines 158-169: the change since the last iteration, rollover fixed, added
to `theGyro.abs_angle`. -/
def storeAbsAngle (s : TaskState) (angle : ℚ) : TaskState :=
  { s with
    delta_angle := fixRollover (angle - s.old_angle)
    old_angle := angle
    theGyro :=
      { s.theGyro with
        abs_angle := s.theGyro.abs_angle + fixRollover (angle - s.old_angle) } }

/-- Line 172: `theGyro.valid = true`. -/
def storeValid (s : TaskState) : TaskState :=
  { s with theGyro := { s.theGyro with valid := true } }

/-- The `angle` local of one iteration, as computed on lines 149-153 from the
reading and the drift error left by the drift filter. -/
def tickAngle (s : TaskState) (i : TickInput) : ℚ :=
  normalizedAngle i.gyro_value (driftFilter s i).theGyro.drift_error

/-- The states of one loop iteration after each group of writes, in program
order: after the drift filter, after line 156, after line 169, after
line 172. -/
def GyroTaskTickTrace (s : TaskState) (i : TickInput) : List TaskState :=
  let s1 := driftFilter s i
  let s2 := storeAngle s1 (tickAngle s i)
  let s3 := storeAbsAngle s2 (tickAngle s i)
  [s1, s2, s3, storeValid s3]

/-- One iteration of the `while(true)` loop of `GyroTask` (lines 133-175). -/
def GyroTaskTick (s : TaskState) (i : TickInput) : TaskState :=
  storeValid (storeAbsAngle (storeAngle (driftFilter s i) (tickAngle s i)) (tickAngle s i))

/-- The loop of `GyroTask` run over the readings of finitely many iterations. -/
def GyroTaskLoop (s : TaskState) (inputs : List TickInput) : TaskState :=
  inputs.foldl GyroTaskTick s

/-- The task `GyroTask`: startup section, then the loop. -/
def GyroTask (g : gyroData) (nSysTime : Int) (inputs : List TickInput) : TaskState :=
  GyroTaskLoop (GyroTaskStart g nSysTime) inputs

/-- The function `GyroInit` (lines 183-192) up to the end of the started
task's startup section. -/
def GyroInit (g : gyroData) (port : tSensors) (nSysTime : Int) : TaskState :=
  GyroTaskStart { g with port := port, valid := false, angle := 0, abs_angle := 0 } nSysTime

/-- The function `GyroReinit` (lines 204-209) up to the end of the restarted
task's startup section: the running task is stopped, its locals are lost, and
the task starts again on the global `theGyro` as it stands. -/
def GyroReinit (s : TaskState) (nSysTime : Int) : TaskState :=
  GyroTaskStart s.theGyro nSysTime

/-- The accessor `GyroAngleDegGet` (lines 215-219). -/
def GyroAngleDegGet (s : TaskState) : ℚ := s.theGyro.angle

/-- The accessor `GyroAngleRadGet` (lines 225-229), as the value it returns
and the state it leaves. `PI` is the ROBOTC float constant of that name, which
this repository does not declare; it is a parameter here. -/
def GyroAngleRadGet (PI : ℚ) (s : TaskState) : ℚ × TaskState :=
  (s.theGyro.angle / 180 * PI, s)

/-- The accessor `GyroAngleAbsGet` (lines 235-239). -/
def GyroAngleAbsGet (s : TaskState) : ℚ := s.theGyro.abs_angle

/-- The accessor `GyroValidGet` (lines 245-249). -/
def GyroValidGet (s : TaskState) : Bool := s.theGyro.valid

/-- Rounding of a rational to the nearest integer, a tie going to the even
neighbour. -/
def roundHalfEven (y : ℚ) : Int :=
  if y - ⌊y⌋ < 1 / 2 then ⌊y⌋
  else if y - ⌊y⌋ > 1 / 2 then ⌊y⌋ + 1
  else if ⌊y⌋ % 2 = 0 then ⌊y⌋ else ⌊y⌋ + 1

/-- The rounding of the ROBOTC `float` type, a 32-bit IEEE 754 number that
this repository does not declare: the nearest number with a 24-bit
significand, ties to even. The exponent range is not bounded, so there is
neither overflow nor underflow. -/
def roundF32 (x : ℚ) : ℚ :=
  if x = 0 then 0
  else (roundHalfEven (x / 2 ^ (Int.log 2 |x| - 23)) : ℚ) * 2 ^ (Int.log 2 |x| - 23)

/-- Lines 148-153 in `float` arithmetic: the integer sum converted to
`float`, divided by `10.0`, and normalised by one conditional `+= 360`. -/
def normalizedAngleF32 (gyro_value drift_error : Int) : ℚ :=
  let angle : ℚ := roundF32 (roundF32 ((gyro_value + drift_error : Int) : ℚ) / 10)
  if angle < 0 then roundF32 (angle + 360) else angle

/-- Lines 162-166 in `float` arithmetic. -/
def fixRolloverF32 (delta_angle : ℚ) : ℚ :=
  let d := if delta_angle > 180 then roundF32 (delta_angle - 360) else delta_angle
  if d < -180 then roundF32 (d + 360) else d

/-- Lines 158-169 in `float` arithmetic. -/
def storeAbsAngleF32 (s : TaskState) (angle : ℚ) : TaskState :=
  { s with
    delta_angle := fixRolloverF32 (roundF32 (angle - s.old_angle))
    old_angle := angle
    theGyro :=
      { s.theGyro with
        abs_angle :=
          roundF32 (s.theGyro.abs_angle + fixRolloverF32 (roundF32 (angle - s.old_angle))) } }

/-- The `angle` local of one iteration in `float` arithmetic. -/
def tickAngleF32 (s : TaskState) (i : TickInput) : ℚ :=
  normalizedAngleF32 i.gyro_value (driftFilter s i).theGyro.drift_error

/-- One iteration of the loop of `GyroTask` (lines 133-175) in `float`
arithmetic. -/
def GyroTaskTickF32 (s : TaskState) (i : TickInput) : TaskState :=
  storeValid
    (storeAbsAngleF32 (storeAngle (driftFilter s i) (tickAngleF32 s i)) (tickAngleF32 s i))

/-- The loop of `GyroTask` in `float` arithmetic over the readings of
finitely many iterations. -/
def GyroTaskLoopF32 (s : TaskState) (inputs : List TickInput) : TaskState :=
  inputs.foldl GyroTaskTickF32 s

/-- The task `GyroTask` in `float` arithmetic: startup section, then the
loop. -/
def GyroTaskF32 (g : gyroData) (nSysTime : Int) (inputs : List TickInput) : TaskState :=
  GyroTaskLoopF32 (GyroTaskStart g nSysTime) inputs

end GyroLib

namespace GyroSim

/-- A store into an `int16_t` variable: reduction modulo 2^16 into the signed
range [-32768, 32767]. -/
def toInt16 (x : Int) : Int := (x + 32768) % 65536 - 32768

/-- The constant `GyroJitterRange` (line 48). -/
def GyroJitterRange : Int := 4

/-- The local `GyroSensorScale` (line 68), never assigned after its
initialisation. -/
def GyroSensorScale : Int := 130

/-- The local `GyroFullScale` (line 69), never assigned after its
initialisation. -/
def GyroFullScale : Int := 3600

/-- The variables of `gyroSim` that are live at the head of its running loop,
with the global `GyroValue`. -/
structure SimState where
  GyroBias : Int
  GyroSmallBias : Int
  GyroRawFiltered : Int
  GyroJitterCycles : Int
  GyroValue : Int
deriving DecidableEq, Repr

/-- The bias loop (lines 77-81) over the samples it reads, one per
iteration, from `GyroBiasAcc = 0`. -/
def biasLoop (window : List Int) : Int :=
  window.foldl (fun GyroBiasAcc sample => GyroBiasAcc + sample) 0

/-- Lines 60-85: the state at the first head of the running loop, from the
1024 samples of the bias loop. `GyroValue` is 0 (line 45, line 129). -/
def calibrate (window : List Int) : SimState :=
  { GyroBias := Int.tdiv (biasLoop window) 1024
    GyroSmallBias := biasLoop window - Int.tdiv (biasLoop window) 1024 * 1024
    GyroRawFiltered := 0
    GyroJitterCycles := 0
    GyroValue := 0 }

/-- Line 93: `GyroDelta = GyroRaw - GyroBias`, stored in an `int16_t`. -/
def gyroDelta (s : SimState) (GyroRaw : Int) : Int :=
  toInt16 (GyroRaw - s.GyroBias)

/-- Lines 95-104: the jitter gate, the integration and the compensation
of the bias error on every 1024th integrated sample. -/
def jitterGate (s : SimState) (GyroDelta : Int) : SimState :=
  if GyroDelta < -GyroJitterRange ∨ GyroDelta > GyroJitterRange then
    { s with
      GyroRawFiltered :=
        if Int.tmod (s.GyroJitterCycles + 1) 1024 = 0 then
          s.GyroRawFiltered + GyroDelta - s.GyroSmallBias
        else s.GyroRawFiltered + GyroDelta
      GyroJitterCycles := s.GyroJitterCycles + 1 }
  else s

/-- Lines 106-111: the angle in degrees * 10 and the full-scale clip. -/
def clipValue (GyroRawFiltered : Int) : Int :=
  let GyroValueTmp := Int.tdiv GyroRawFiltered GyroSensorScale
  if |GyroValueTmp| ≥ GyroFullScale then
    GyroValueTmp - Int.tdiv GyroValueTmp GyroFullScale * GyroFullScale
  else GyroValueTmp

/-- One iteration of the running loop of `gyroSim` (lines 90-117) on the
sample `GyroRaw` read on line 91. -/
def gyroSimTick (s : SimState) (GyroRaw : Int) : SimState :=
  { jitterGate s (gyroDelta s GyroRaw) with
    GyroValue := clipValue (jitterGate s (gyroDelta s GyroRaw)).GyroRawFiltered }

/-- The running loop over the samples of finitely many iterations. -/
def gyroSimLoop (s : SimState) (samples : List Int) : SimState :=
  samples.foldl gyroSimTick s

/-- The task `gyroSim` on the stream of samples it has read so far: the
first 1024 samples go to the bias loop, the rest to the running loop. With
fewer than 1024 samples the task is still in the bias loop and there is no
running state yet. -/
def gyroSim (samples : List Int) : Option SimState :=
  if samples.length < 1024 then none
  else some (gyroSimLoop (calibrate (samples.take 1024)) (samples.drop 1024))

/-- A store into an `int32_t` variable: reduction modulo 2^32 into the signed
range [-2147483648, 2147483647]. -/
def toInt32 (x : Int) : Int := (x + 2147483648) % 4294967296 - 2147483648

/-- The bias loop (lines 77-81) with `GyroBiasAcc` as the `int32_t` it is
declared (line 60): every sum is stored through `toInt32`. -/
def biasLoop32 (window : List Int) : Int :=
  window.foldl (fun GyroBiasAcc sample => toInt32 (GyroBiasAcc + toInt32 sample)) 0

/-- Lines 60-85 with every `int32_t` result stored through `toInt32`. -/
def calibrate32 (window : List Int) : SimState :=
  { GyroBias := toInt32 (Int.tdiv (biasLoop32 window) 1024)
    GyroSmallBias :=
      toInt32 (biasLoop32 window
        - toInt32 (toInt32 (Int.tdiv (biasLoop32 window) 1024) * 1024))
    GyroRawFiltered := 0
    GyroJitterCycles := 0
    GyroValue := 0 }

/-- Line 93 with the `int32_t` difference `GyroRaw - GyroBias` (lines 61, 63)
stored in the `int16_t` `GyroDelta`. -/
def gyroDelta32 (s : SimState) (GyroRaw : Int) : Int :=
  toInt16 (toInt32 (toInt32 GyroRaw - s.GyroBias))

/-- Lines 95-104 with `GyroRawFiltered` and `GyroJitterCycles` as the
`int32_t` they are declared (lines 64, 70): the results of `+=`, `++` and `-=`
are stored through `toInt32`. -/
def jitterGate32 (s : SimState) (GyroDelta : Int) : SimState :=
  if GyroDelta < -GyroJitterRange ∨ GyroDelta > GyroJitterRange then
    { s with
      GyroRawFiltered :=
        if Int.tmod (toInt32 (s.GyroJitterCycles + 1)) 1024 = 0 then
          toInt32 (toInt32 (s.GyroRawFiltered + GyroDelta) - s.GyroSmallBias)
        else toInt32 (s.GyroRawFiltered + GyroDelta)
      GyroJitterCycles := toInt32 (s.GyroJitterCycles + 1) }
  else s

/-- Lines 106-111 with every `int32_t` result stored through `toInt32`. -/
def clipValue32 (GyroRawFiltered : Int) : Int :=
  let GyroValueTmp := toInt32 (Int.tdiv GyroRawFiltered GyroSensorScale)
  if toInt32 |GyroValueTmp| ≥ GyroFullScale then
    toInt32 (GyroValueTmp
      - toInt32 (toInt32 (Int.tdiv GyroValueTmp GyroFullScale) * GyroFullScale))
  else GyroValueTmp

/-- One iteration of the running loop (lines 90-117) in 32-bit arithmetic. -/
def gyroSimTick32 (s : SimState) (GyroRaw : Int) : SimState :=
  { jitterGate32 s (gyroDelta32 s GyroRaw) with
    GyroValue := clipValue32 (jitterGate32 s (gyroDelta32 s GyroRaw)).GyroRawFiltered }

/-- The running loop in 32-bit arithmetic over the samples of finitely many
iterations. -/
def gyroSimLoop32 (s : SimState) (samples : List Int) : SimState :=
  samples.foldl gyroSimTick32 s

/-- The task `gyroSim` in 32-bit arithmetic on the stream of samples it has
read so far. -/
def gyroSim32 (samples : List Int) : Option SimState :=
  if samples.length < 1024 then none
  else some (gyroSimLoop32 (calibrate32 (samples.take 1024)) (samples.drop 1024))

end GyroSim

/-! ## gyroLib2.c : the task `GyroTask` -/

namespace GyroLib

theorem fixRollover_cases (d : ℚ) :
    fixRollover d = d - 360 ∨ fixRollover d = d ∨ fixRollover d = d + 360 := by
  unfold fixRollover
  dsimp only
  split_ifs <;> simp

theorem fixRollover_abs_le_iff (d : ℚ) : |fixRollover d| ≤ 180 ↔ |d| ≤ 540 := by
  unfold fixRollover
  dsimp only
  rw [abs_le, abs_le]
  split_ifs <;> constructor <;> rintro ⟨h1, h2⟩ <;> constructor <;> linarith

theorem driftFilter_old_angle (s : TaskState) (i : TickInput) :
    (driftFilter s i).old_angle = s.old_angle := by
  unfold driftFilter
  split_ifs <;> rfl

theorem driftFilter_abs_angle (s : TaskState) (i : TickInput) :
    (driftFilter s i).theGyro.abs_angle = s.theGyro.abs_angle := by
  unfold driftFilter
  split_ifs <;> rfl

theorem driftFilter_valid (s : TaskState) (i : TickInput) :
    (driftFilter s i).theGyro.valid = s.theGyro.valid := by
  unfold driftFilter
  split_ifs <;> rfl

theorem driftFilter_port (s : TaskState) (i : TickInput) :
    (driftFilter s i).theGyro.port = s.theGyro.port := by
  unfold driftFilter
  split_ifs <;> rfl

theorem GyroTaskTick_delta_angle (s : TaskState) (i : TickInput) :
    (GyroTaskTick s i).delta_angle = fixRollover (tickAngle s i - s.old_angle) := by
  simp [GyroTaskTick, storeValid, storeAbsAngle, storeAngle, driftFilter_old_angle]

theorem GyroTaskTick_abs_angle (s : TaskState) (i : TickInput) :
    (GyroTaskTick s i).theGyro.abs_angle
      = s.theGyro.abs_angle + fixRollover (tickAngle s i - s.old_angle) := by
  simp [GyroTaskTick, storeValid, storeAbsAngle, storeAngle, driftFilter_old_angle,
    driftFilter_abs_angle]

theorem GyroTaskTick_angle (s : TaskState) (i : TickInput) :
    (GyroTaskTick s i).theGyro.angle = tickAngle s i := by
  simp [GyroTaskTick, storeValid, storeAbsAngle, storeAngle]

theorem GyroTaskTick_old_angle (s : TaskState) (i : TickInput) :
    (GyroTaskTick s i).old_angle = tickAngle s i := by
  simp [GyroTaskTick, storeValid, storeAbsAngle, storeAngle]

theorem GyroTaskTick_valid (s : TaskState) (i : TickInput) :
    (GyroTaskTick s i).theGyro.valid = true := by
  simp [GyroTaskTick, storeValid]

/-- C1: the heading published by `GyroTask` leaves [0, 360) on a run whose
readings all lie strictly between -3600 and 3600: after a drift check has
made `drift_error` 2, the reading 3599 publishes 360.1 with `valid` true. -/
theorem heading_leaves_range :
    GyroValidGet (GyroTask theGyroZero 1000 [⟨-2, 1260, 1260⟩, ⟨3599, 1280, 1280⟩]) = true ∧
    (GyroTask theGyroZero 1000 [⟨-2, 1260, 1260⟩, ⟨3599, 1280, 1280⟩]).theGyro.drift_error = 2 ∧
    GyroAngleDegGet (GyroTask theGyroZero 1000 [⟨-2, 1260, 1260⟩, ⟨3599, 1280, 1280⟩])
      = 3601 / 10 ∧
    ¬ (GyroAngleDegGet (GyroTask theGyroZero 1000 [⟨-2, 1260, 1260⟩, ⟨3599, 1280, 1280⟩])
      < 360) := by
  have h : GyroAngleDegGet (GyroTask theGyroZero 1000 [⟨-2, 1260, 1260⟩, ⟨3599, 1280, 1280⟩])
      = 3601 / 10 := by
    norm_num [GyroAngleDegGet, GyroTask, GyroTaskLoop, GyroTaskTick, GyroTaskStart, storeValid,
      storeAbsAngle, storeAngle, tickAngle, driftFilter, normalizedAngle, theGyroZero,
      GYRO_DRIFT_THRESHOLD]
  refine ⟨?_, ?_, h, ?_⟩
  · simp [GyroValidGet, GyroTask, GyroTaskLoop, GyroTaskTick_valid]
  · norm_num [GyroTask, GyroTaskLoop, GyroTaskTick, GyroTaskStart, storeValid,
      storeAbsAngle, storeAngle, tickAngle, driftFilter, normalizedAngle, theGyroZero,
      GYRO_DRIFT_THRESHOLD]
  · rw [h]; norm_num

/-- C2: a single reading of 10000 taken right after the startup section gives
a wrap-corrected `delta_angle` of 640, above 180, and it is added to
`theGyro.abs_angle`. -/
theorem delta_angle_exceeds_180 :
    (GyroTask theGyroZero 0 [⟨10000, 20, 20⟩]).delta_angle = 640 ∧
    (GyroTask theGyroZero 0 [⟨10000, 20, 20⟩]).theGyro.abs_angle = 640 ∧
    ¬ (|(GyroTask theGyroZero 0 [⟨10000, 20, 20⟩]).delta_angle| ≤ 180) := by
  have h : (GyroTask theGyroZero 0 [⟨10000, 20, 20⟩]).delta_angle = 640 := by
    norm_num [GyroTask, GyroTaskLoop, GyroTaskTick, GyroTaskStart, storeValid,
      storeAbsAngle, storeAngle, tickAngle, driftFilter, normalizedAngle, theGyroZero,
      fixRollover]
  refine ⟨h, ?_, ?_⟩
  · norm_num [GyroTask, GyroTaskLoop, GyroTaskTick, GyroTaskStart, storeValid,
      storeAbsAngle, storeAngle, tickAngle, driftFilter, normalizedAngle, theGyroZero,
      fixRollover]
  · rw [h]; norm_num

/-- C2 (amended): on every tick of `GyroTask` on which the heading moved by
at most 540 since the previous tick, `|angle - old_angle| ≤ 540`, the
wrap-corrected `delta_angle` is what is added to `theGyro.abs_angle` and it
satisfies `|delta_angle| ≤ 180`. -/
theorem delta_angle_le_180 (s : TaskState) (i : TickInput)
    (h : |tickAngle s i - s.old_angle| ≤ 540) :
    (GyroTaskTick s i).theGyro.abs_angle
        = s.theGyro.abs_angle + (GyroTaskTick s i).delta_angle ∧
      |(GyroTaskTick s i).delta_angle| ≤ 180 := by
  rw [GyroTaskTick_abs_angle, GyroTaskTick_delta_angle]
  exact ⟨rfl, (fixRollover_abs_le_iff _).mpr h⟩

/-- C2 (witness): the first tick after startup, with the reading 3590. -/
theorem delta_angle_le_180_witness :
    |tickAngle (GyroTaskStart theGyroZero 0) ⟨3590, 20, 20⟩
        - (GyroTaskStart theGyroZero 0).old_angle| ≤ 540 ∧
      |(GyroTaskTick (GyroTaskStart theGyroZero 0) ⟨3590, 20, 20⟩).delta_angle| ≤ 180 := by
  have h : |tickAngle (GyroTaskStart theGyroZero 0) ⟨3590, 20, 20⟩
      - (GyroTaskStart theGyroZero 0).old_angle| ≤ 540 := by
    have ha : tickAngle (GyroTaskStart theGyroZero 0) ⟨3590, 20, 20⟩ = 359 := by
      norm_num [tickAngle, GyroTaskStart, driftFilter, normalizedAngle, theGyroZero]
    have ho : (GyroTaskStart theGyroZero 0).old_angle = 0 := rfl
    rw [ha, ho, abs_le]
    norm_num
  exact ⟨h, (delta_angle_le_180 (GyroTaskStart theGyroZero 0) ⟨3590, 20, 20⟩ h).2⟩

/-- With the angles taken as exact rationals: when the previous heading
`old_angle` and the heading of this tick both lie in [0, 360), the delta added
to `abs_angle` is the heading change plus 360 * k for some k in {-1, 0, 1} and
lies in [-180, 180]; the heading step 359.0 -> 1.0 yields delta +2.0 and the
step 2.0 -> 358.0 yields delta -4.0. -/
theorem rollover_shortest_path (s : TaskState) (i : TickInput)
    (hp : 0 ≤ s.old_angle ∧ s.old_angle < 360)
    (hh : 0 ≤ tickAngle s i ∧ tickAngle s i < 360) :
    ((GyroTaskTick s i).theGyro.abs_angle
        = s.theGyro.abs_angle + (GyroTaskTick s i).delta_angle ∧
      (∃ k : Int, (k = -1 ∨ k = 0 ∨ k = 1) ∧
        (GyroTaskTick s i).delta_angle = tickAngle s i - s.old_angle + 360 * (k : ℚ)) ∧
      -180 ≤ (GyroTaskTick s i).delta_angle ∧ (GyroTaskTick s i).delta_angle ≤ 180) ∧
    ((GyroTask theGyroZero 0 [⟨3590, 20, 20⟩]).theGyro.angle = 359 ∧
      (GyroTask theGyroZero 0 [⟨3590, 20, 20⟩, ⟨10, 40, 40⟩]).theGyro.angle = 1 ∧
      (GyroTask theGyroZero 0 [⟨3590, 20, 20⟩, ⟨10, 40, 40⟩]).delta_angle = 2 ∧
      (GyroTask theGyroZero 0 [⟨3590, 20, 20⟩, ⟨10, 40, 40⟩]).theGyro.abs_angle
        = (GyroTask theGyroZero 0 [⟨3590, 20, 20⟩]).theGyro.abs_angle + 2) ∧
    ((GyroTask theGyroZero 0 [⟨20, 20, 20⟩]).theGyro.angle = 2 ∧
      (GyroTask theGyroZero 0 [⟨20, 20, 20⟩, ⟨3580, 40, 40⟩]).theGyro.angle = 358 ∧
      (GyroTask theGyroZero 0 [⟨20, 20, 20⟩, ⟨3580, 40, 40⟩]).delta_angle = -4 ∧
      (GyroTask theGyroZero 0 [⟨20, 20, 20⟩, ⟨3580, 40, 40⟩]).theGyro.abs_angle
        = (GyroTask theGyroZero 0 [⟨20, 20, 20⟩]).theGyro.abs_angle + -4) := by
  refine ⟨⟨?_, ?_, ?_⟩, ?_, ?_⟩
  · rw [GyroTaskTick_abs_angle, GyroTaskTick_delta_angle]
  · rw [GyroTaskTick_delta_angle]
    rcases fixRollover_cases (tickAngle s i - s.old_angle) with h | h | h
    · exact ⟨-1, Or.inl rfl, by rw [h]; push_cast; ring⟩
    · exact ⟨0, Or.inr (Or.inl rfl), by rw [h]; push_cast; ring⟩
    · exact ⟨1, Or.inr (Or.inr rfl), by rw [h]; push_cast; ring⟩
  · rw [GyroTaskTick_delta_angle]
    have h : |fixRollover (tickAngle s i - s.old_angle)| ≤ 180 := by
      rw [fixRollover_abs_le_iff, abs_le]
      constructor <;> linarith [hp.1, hp.2, hh.1, hh.2]
    exact abs_le.mp h
  · norm_num [GyroTask, GyroTaskLoop, GyroTaskTick, GyroTaskStart, storeValid,
      storeAbsAngle, storeAngle, tickAngle, driftFilter, normalizedAngle, theGyroZero,
      fixRollover]
  · norm_num [GyroTask, GyroTaskLoop, GyroTaskTick, GyroTaskStart, storeValid,
      storeAbsAngle, storeAngle, tickAngle, driftFilter, normalizedAngle, theGyroZero,
      fixRollover]

/-- C7: stationary drift nulling. On a tick where the check window has
elapsed and the reading moved by less than `GYRO_DRIFT_THRESHOLD` since the
last check, `drift_error` grows by `lastDriftGyro - gyro_value`, so that the
corrected reading `gyro_value + drift_error` of this tick is `lastDriftGyro`
plus the previous `drift_error`, and the heading of the tick is the heading of
that value; on every other tick `drift_error` is unchanged; on every check
tick `lastDriftGyro` becomes `gyro_value` and `nSysTimeOffset` is reloaded
from `nSysTime`, and on a tick without a check both are unchanged. -/
theorem drift_nulling (s : TaskState) (i : TickInput) :
    (i.nSysTime - s.nSysTimeOffset > 250 ∧
        |i.gyro_value - s.lastDriftGyro| < GYRO_DRIFT_THRESHOLD →
      (GyroTaskTick s i).theGyro.drift_error
          = s.theGyro.drift_error + (s.lastDriftGyro - i.gyro_value) ∧
        i.gyro_value + (GyroTaskTick s i).theGyro.drift_error
          = s.lastDriftGyro + s.theGyro.drift_error ∧
        (GyroTaskTick s i).theGyro.angle
          = normalizedAngle s.lastDriftGyro s.theGyro.drift_error) ∧
    (¬ (i.nSysTime - s.nSysTimeOffset > 250 ∧
        |i.gyro_value - s.lastDriftGyro| < GYRO_DRIFT_THRESHOLD) →
      (GyroTaskTick s i).theGyro.drift_error = s.theGyro.drift_error ∧
        (GyroTaskTick s i).theGyro.angle
          = normalizedAngle i.gyro_value s.theGyro.drift_error) ∧
    (i.nSysTime - s.nSysTimeOffset > 250 →
      (GyroTaskTick s i).lastDriftGyro = i.gyro_value ∧
        (GyroTaskTick s i).nSysTimeOffset = i.nSysTimeRestart) ∧
    (¬ (i.nSysTime - s.nSysTimeOffset > 250) →
      (GyroTaskTick s i).lastDriftGyro = s.lastDriftGyro ∧
        (GyroTaskTick s i).nSysTimeOffset = s.nSysTimeOffset) := by
  refine ⟨?_, ?_, ?_, ?_⟩
  · rintro ⟨h1, h2⟩
    have hd : (driftFilter s i).theGyro.drift_error
        = s.theGyro.drift_error + (s.lastDriftGyro - i.gyro_value) := by
      simp [driftFilter, h1, h2]
    have hg : i.gyro_value + (s.theGyro.drift_error + (s.lastDriftGyro - i.gyro_value))
        = s.lastDriftGyro + s.theGyro.drift_error := by ring
    refine ⟨?_, ?_, ?_⟩
    · simpa [GyroTaskTick, storeValid, storeAbsAngle, storeAngle] using hd
    · have : (GyroTaskTick s i).theGyro.drift_error
          = s.theGyro.drift_error + (s.lastDriftGyro - i.gyro_value) := by
        simpa [GyroTaskTick, storeValid, storeAbsAngle, storeAngle] using hd
      rw [this, hg]
    · rw [GyroTaskTick_angle, tickAngle, hd]
      unfold normalizedAngle
      rw [hg]
  · intro h
    have hd : (driftFilter s i).theGyro.drift_error = s.theGyro.drift_error := by
      unfold driftFilter
      by_cases h1 : i.nSysTime - s.nSysTimeOffset > 250
      · have h2 : ¬ |i.gyro_value - s.lastDriftGyro| < GYRO_DRIFT_THRESHOLD :=
          fun h2 => h ⟨h1, h2⟩
        simp [h1, h2]
      · simp [h1]
    refine ⟨?_, ?_⟩
    · simpa [GyroTaskTick, storeValid, storeAbsAngle, storeAngle] using hd
    · rw [GyroTaskTick_angle, tickAngle, hd]
  · intro h1
    simp [GyroTaskTick, storeValid, storeAbsAngle, storeAngle, driftFilter, h1]
  · intro h1
    simp [GyroTaskTick, storeValid, storeAbsAngle, storeAngle, driftFilter, h1]

/-- C7 (witness): the first drift check after startup, with the reading 2. -/
theorem drift_nulling_witness :
    (((⟨2, 300, 300⟩ : TickInput).nSysTime - (GyroTaskStart theGyroZero 0).nSysTimeOffset > 250 ∧
        |(⟨2, 300, 300⟩ : TickInput).gyro_value - (GyroTaskStart theGyroZero 0).lastDriftGyro|
          < GYRO_DRIFT_THRESHOLD)) ∧
      (GyroTaskTick (GyroTaskStart theGyroZero 0) ⟨2, 300, 300⟩).theGyro.drift_error
        = (GyroTaskStart theGyroZero 0).theGyro.drift_error
          + ((GyroTaskStart theGyroZero 0).lastDriftGyro
            - (⟨2, 300, 300⟩ : TickInput).gyro_value) := by
  have h : (⟨2, 300, 300⟩ : TickInput).nSysTime
        - (GyroTaskStart theGyroZero 0).nSysTimeOffset > 250 ∧
      |(⟨2, 300, 300⟩ : TickInput).gyro_value - (GyroTaskStart theGyroZero 0).lastDriftGyro|
        < GYRO_DRIFT_THRESHOLD := by
    simp [GyroTaskStart, GYRO_DRIFT_THRESHOLD]
  exact ⟨h, ((drift_nulling (GyroTaskStart theGyroZero 0) ⟨2, 300, 300⟩).1 h).1⟩

/-- C8: from a state whose heading is 90, `GyroReinit` and the restarted
task's startup section leave the heading at 90, not at the 0 that
`GyroInit` establishes. -/
theorem reinit_keeps_heading :
    (GyroReinit ⟨⟨0, true, 90, 90, 0⟩, 900, 90, 0, 0⟩ 5000).theGyro.angle = 90 ∧
    (GyroInit ⟨0, true, 90, 90, 0⟩ 0 5000).theGyro.angle = 0 ∧
    (GyroReinit ⟨⟨0, true, 90, 90, 0⟩, 900, 90, 0, 0⟩ 5000).theGyro.angle ≠ 0 := by
  refine ⟨rfl, rfl, ?_⟩
  show (90 : ℚ) ≠ 0
  norm_num

/-- C8 (amended): from any state, `GyroReinit` and the restarted task's
startup section leave `abs_angle` = 0, `valid` = false, `drift_error` = 0 and
the task locals at their initial values, and leave `port` and `angle` as they
were; the result is the state `GyroInit` establishes on the same port exactly
when the heading was already 0. -/
theorem reinit_fields (s : TaskState) (nSysTime : Int) :
    (GyroReinit s nSysTime).theGyro.abs_angle = 0 ∧
    (GyroReinit s nSysTime).theGyro.valid = false ∧
    (GyroReinit s nSysTime).theGyro.drift_error = 0 ∧
    (GyroReinit s nSysTime).theGyro.port = s.theGyro.port ∧
    (GyroReinit s nSysTime).theGyro.angle = s.theGyro.angle ∧
    (GyroReinit s nSysTime).lastDriftGyro = 0 ∧
    (GyroReinit s nSysTime).old_angle = 0 ∧
    (GyroReinit s nSysTime).nSysTimeOffset = nSysTime ∧
    (GyroInit s.theGyro s.theGyro.port nSysTime).theGyro
      = ⟨s.theGyro.port, false, 0, 0, 0⟩ ∧
    (GyroReinit s nSysTime = GyroInit s.theGyro s.theGyro.port nSysTime
      ↔ s.theGyro.angle = 0) := by
  refine ⟨rfl, rfl, rfl, rfl, rfl, rfl, rfl, rfl, rfl, ?_⟩
  constructor
  · intro h
    have h2 := congrArg (fun t => t.theGyro.angle) h
    simpa [GyroReinit, GyroInit, GyroTaskStart] using h2
  · intro h
    simp [GyroReinit, GyroInit, GyroTaskStart, h]

/-- C9: `GyroReinit` is idempotent. Applied twice with no tick in between,
it gives the state a single application at the second restart gives, the
published `theGyro` and every task local other than the timer offset are as
after the first application, and after each application `valid` is false and
`abs_angle` is 0. -/
theorem reinit_idempotent (s : TaskState) (t1 t2 : Int) :
    GyroReinit (GyroReinit s t1) t2 = GyroReinit s t2 ∧
    GyroReinit (GyroReinit s t1) t1 = GyroReinit s t1 ∧
    (GyroReinit (GyroReinit s t1) t2).theGyro = (GyroReinit s t1).theGyro ∧
    (GyroReinit (GyroReinit s t1) t2).lastDriftGyro = (GyroReinit s t1).lastDriftGyro ∧
    (GyroReinit (GyroReinit s t1) t2).old_angle = (GyroReinit s t1).old_angle ∧
    (GyroReinit (GyroReinit s t1) t2).delta_angle = (GyroReinit s t1).delta_angle ∧
    (GyroValidGet (GyroReinit s t1) = false ∧ GyroAngleAbsGet (GyroReinit s t1) = 0) ∧
    (GyroValidGet (GyroReinit (GyroReinit s t1) t2) = false ∧
      GyroAngleAbsGet (GyroReinit (GyroReinit s t1) t2) = 0) :=
  ⟨rfl, rfl, rfl, rfl, rfl, rfl, ⟨rfl, rfl⟩, ⟨rfl, rfl⟩⟩

theorem GyroTaskLoop_valid (inputs : List TickInput) :
    ∀ s : TaskState, inputs ≠ [] → (GyroTaskLoop s inputs).theGyro.valid = true := by
  induction inputs with
  | nil => intro s h; exact absurd rfl h
  | cons i rest ih =>
    intro s _
    by_cases hr : rest = []
    · subst hr
      simp [GyroTaskLoop, GyroTaskTick_valid]
    · exact ih (GyroTaskTick s i) hr

/-- C10: validity gating. `valid` is false after the startup section; in
every tick that starts with `valid` false (the first tick) it is still false
after the drift filter, after the write of `angle` and after the write of
`abs_angle`; the write of `valid` is the last of a tick and finds `angle` and
`abs_angle` already at their values for the tick; `valid` is true after
every completed tick; and `GyroReinit` makes it false until the first new
tick completes. -/
theorem valid_gating (g : gyroData) (t : Int) (s : TaskState) (i : TickInput)
    (rest : List TickInput) :
    GyroValidGet (GyroTask g t []) = false ∧
    (∃ s1 s2 s3 : TaskState,
      GyroTaskTickTrace s i = [s1, s2, s3, GyroTaskTick s i] ∧
      s1.theGyro.valid = s.theGyro.valid ∧
      s2.theGyro.valid = s.theGyro.valid ∧
      s3.theGyro.valid = s.theGyro.valid ∧
      s1.theGyro.abs_angle = s.theGyro.abs_angle ∧
      s2.theGyro.abs_angle = s.theGyro.abs_angle ∧
      s2.theGyro.angle = (GyroTaskTick s i).theGyro.angle ∧
      s3.theGyro.angle = (GyroTaskTick s i).theGyro.angle ∧
      s3.theGyro.abs_angle = (GyroTaskTick s i).theGyro.abs_angle ∧
      GyroTaskTick s i = storeValid s3) ∧
    (∀ x ∈ (GyroTaskTickTrace (GyroTask g t []) i).take 3, GyroValidGet x = false) ∧
    GyroValidGet (GyroTask g t (i :: rest)) = true ∧
    GyroValidGet (GyroTaskLoop s (i :: rest)) = true ∧
    GyroValidGet (GyroReinit s t) = false ∧
    (∀ x ∈ (GyroTaskTickTrace (GyroReinit s t) i).take 3, GyroValidGet x = false) ∧
    GyroValidGet (GyroTaskLoop (GyroReinit s t) (i :: rest)) = true := by
  have htrace : ∀ (u : TaskState), u.theGyro.valid = false →
      ∀ x ∈ (GyroTaskTickTrace u i).take 3, GyroValidGet x = false := by
    intro u hu x hx
    simp only [GyroTaskTickTrace, List.take_succ_cons, List.take_zero, List.mem_cons,
      List.mem_nil_iff, or_false] at hx
    rcases hx with rfl | rfl | rfl
    · simpa [GyroValidGet, driftFilter_valid] using hu
    · simpa [GyroValidGet, storeAngle, driftFilter_valid] using hu
    · simpa [GyroValidGet, storeAbsAngle, storeAngle, driftFilter_valid] using hu
  refine ⟨rfl, ?_, htrace _ rfl, ?_, ?_, rfl, htrace _ rfl, ?_⟩
  · refine ⟨driftFilter s i, storeAngle (driftFilter s i) (tickAngle s i),
      storeAbsAngle (storeAngle (driftFilter s i) (tickAngle s i)) (tickAngle s i),
      rfl, driftFilter_valid s i, ?_, ?_, driftFilter_abs_angle s i, ?_, ?_, ?_, ?_, rfl⟩
    · simp [storeAngle, driftFilter_valid]
    · simp [storeAbsAngle, storeAngle, driftFilter_valid]
    · simp [storeAngle, driftFilter_abs_angle]
    · simp [GyroTaskTick, storeValid, storeAbsAngle, storeAngle]
    · simp [GyroTaskTick, storeValid, storeAbsAngle, storeAngle]
    · simp [GyroTaskTick, storeValid, storeAbsAngle, storeAngle]
  · exact GyroTaskLoop_valid (i :: rest) _ (List.cons_ne_nil _ _)
  · exact GyroTaskLoop_valid (i :: rest) _ (List.cons_ne_nil _ _)
  · exact GyroTaskLoop_valid (i :: rest) _ (List.cons_ne_nil _ _)

end GyroLib

/-! ## gyroSim.c : the task `gyroSim` -/

namespace GyroSim

theorem biasLoop_aux (window : List Int) :
    ∀ acc : Int, window.foldl (fun GyroBiasAcc sample => GyroBiasAcc + sample) acc
      = acc + window.sum := by
  induction window with
  | nil => intro acc; simp
  | cons x xs ih => intro acc; simp [ih, add_assoc]

theorem biasLoop_eq_sum (window : List Int) : biasLoop window = window.sum := by
  simp [biasLoop, biasLoop_aux]

theorem gyroSim_append (window running : List Int) (h : window.length = 1024) :
    gyroSim (window ++ running) = some (gyroSimLoop (calibrate window) running) := by
  have hlen : ¬ (window ++ running).length < 1024 := by
    rw [List.length_append, h]; omega
  have ht : (window ++ running).take 1024 = window := by
    rw [← h]; exact List.take_left' rfl
  have hd : (window ++ running).drop 1024 = running := by
    rw [← h]; exact List.drop_left' rfl
  unfold gyroSim
  rw [if_neg hlen, ht, hd]

theorem gyroSim_window (window : List Int) (h : window.length = 1024) :
    gyroSim window = some (calibrate window) := by
  have := gyroSim_append window [] h
  simpa [gyroSimLoop] using this

theorem floor_div_1024 (S : Int) : ⌊(S : ℚ) / 1024⌋ = S / 1024 := by
  have h := Rat.floor_intCast_div_natCast S 1024
  simpa using h

theorem tdiv_1024_floor (S : Int) (h : 0 ≤ S) : Int.tdiv S 1024 = ⌊(S : ℚ) / 1024⌋ := by
  rw [floor_div_1024, Int.tdiv_eq_ediv h (by norm_num)]

theorem tdiv_1024_ceil (S : Int) (h : S ≤ 0) : Int.tdiv S 1024 = ⌈(S : ℚ) / 1024⌉ := by
  have h2 : Int.tdiv S 1024 = -Int.tdiv (-S) 1024 := by
    rw [Int.neg_tdiv, neg_neg]
  have h3 : (S : ℚ) / 1024 = -(((-S : Int) : ℚ) / 1024) := by
    push_cast; ring
  rw [h2, Int.tdiv_eq_ediv (by omega) (by norm_num), h3, Int.ceil_neg, floor_div_1024]

/-- C4: for the window of 1023 samples 0 and one sample -1, of sum -1,
`GyroBias` is 0 while floor(S / N) is -1, and `GyroSmallBias` is -1. -/
theorem calibration_not_floor :
    (List.replicate 1023 (0 : Int) ++ [-1]).length = 1024 ∧
    (List.replicate 1023 (0 : Int) ++ [-1]).sum = -1 ∧
    gyroSim (List.replicate 1023 (0 : Int) ++ [-1]) = some ⟨0, -1, 0, 0, 0⟩ ∧
    ⌊(((List.replicate 1023 (0 : Int) ++ [-1]).sum : Int) : ℚ) / 1024⌋ = -1 ∧
    (calibrate (List.replicate 1023 (0 : Int) ++ [-1])).GyroBias
      ≠ ⌊(((List.replicate 1023 (0 : Int) ++ [-1]).sum : Int) : ℚ) / 1024⌋ := by
  have hlen : (List.replicate 1023 (0 : Int) ++ [-1]).length = 1024 := by
    rw [List.length_append, List.length_replicate]; rfl
  have hsum : (List.replicate 1023 (0 : Int) ++ [-1]).sum = -1 := by
    rw [List.sum_append, List.sum_replicate, smul_zero]; rfl
  have hcal : calibrate (List.replicate 1023 (0 : Int) ++ [-1]) = ⟨0, -1, 0, 0, 0⟩ := by
    unfold calibrate
    rw [biasLoop_eq_sum, hsum]
    decide
  have hfloor : ⌊(((List.replicate 1023 (0 : Int) ++ [-1]).sum : Int) : ℚ) / 1024⌋ = -1 := by
    rw [hsum, floor_div_1024]; decide
  refine ⟨hlen, hsum, ?_, hfloor, ?_⟩
  · rw [gyroSim_window _ hlen, hcal]
  · rw [hcal, hfloor]; decide

/-- C4 (amended): for every window of N = 1024 integer samples with sum S,
the calibration of `gyroSim` finishes with `GyroBias` the quotient of S by N
truncated toward zero and `GyroSmallBias = S - GyroBias * N` exactly; the
quotient is floor(S / N) when S is not negative and ceil(S / N) when S is not
positive. -/
theorem calibration_truncates (window : List Int) (hN : window.length = 1024) :
    ∃ s : SimState, gyroSim window = some s ∧
      s.GyroBias = Int.tdiv window.sum 1024 ∧
      s.GyroSmallBias = window.sum - s.GyroBias * 1024 ∧
      (0 ≤ window.sum → s.GyroBias = ⌊(window.sum : ℚ) / 1024⌋) ∧
      (window.sum ≤ 0 → s.GyroBias = ⌈(window.sum : ℚ) / 1024⌉) := by
  refine ⟨calibrate window, gyroSim_window window hN, ?_, ?_, ?_, ?_⟩
  · simp [calibrate, biasLoop_eq_sum]
  · simp [calibrate, biasLoop_eq_sum]
  · intro h
    simp only [calibrate, biasLoop_eq_sum]
    exact tdiv_1024_floor _ h
  · intro h
    simp only [calibrate, biasLoop_eq_sum]
    exact tdiv_1024_ceil _ h

/-- C4 (witness): the window of 1024 samples 5. -/
theorem calibration_truncates_witness :
    (List.replicate 1024 (5 : Int)).length = 1024 ∧
    ∃ s : SimState, gyroSim (List.replicate 1024 (5 : Int)) = some s ∧
      s.GyroBias = Int.tdiv (List.replicate 1024 (5 : Int)).sum 1024 ∧
      s.GyroSmallBias = (List.replicate 1024 (5 : Int)).sum - s.GyroBias * 1024 :=
  ⟨List.length_replicate _ _,
    (calibration_truncates (List.replicate 1024 (5 : Int)) (List.length_replicate _ _)).imp
      fun _ h => ⟨h.1, h.2.1, h.2.2.1⟩⟩

theorem toInt16_of_fits (x : Int) (h1 : -32768 ≤ x) (h2 : x ≤ 32767) : toInt16 x = x := by
  unfold toInt16
  omega

theorem calibrate_zeros : calibrate (List.replicate 1024 (0 : Int)) = ⟨0, 0, 0, 0, 0⟩ := by
  unfold calibrate
  rw [biasLoop_eq_sum, List.sum_replicate, smul_zero]
  decide

/-- C5: after a calibration on 1024 samples 0 (`GyroBias` = 0), the sample 4
has delta = 4, not below the threshold 4, and the tick leaves
`GyroRawFiltered` at 0 instead of adding 4. -/
theorem jitter_gate_rejects_threshold :
    gyroSim (List.replicate 1024 (0 : Int) ++ [4]) = some ⟨0, 0, 0, 0, 0⟩ ∧
    (4 : Int) - (calibrate (List.replicate 1024 (0 : Int))).GyroBias = 4 ∧
    ¬ (|(4 : Int) - (calibrate (List.replicate 1024 (0 : Int))).GyroBias| < GyroJitterRange) ∧
    (gyroSimTick (calibrate (List.replicate 1024 (0 : Int))) 4).GyroRawFiltered
      ≠ (calibrate (List.replicate 1024 (0 : Int))).GyroRawFiltered
        + ((4 : Int) - (calibrate (List.replicate 1024 (0 : Int))).GyroBias) := by
  refine ⟨?_, ?_, ?_, ?_⟩
  · rw [gyroSim_append _ _ (List.length_replicate _ _), calibrate_zeros]
    decide
  · rw [calibrate_zeros]; decide
  · rw [calibrate_zeros]; decide
  · rw [calibrate_zeros]; decide

/-- C5 (amended): jitter gate of `gyroSim`. On every tick the 16-bit
`GyroDelta` is `raw - GyroBias` whenever that difference lies in
[-32768, 32767]; the accumulator `GyroRawFiltered` and the cycle counter are
left unchanged if `|GyroDelta| ≤ GyroJitterRange` = 4; otherwise `GyroDelta`
is added to `GyroRawFiltered`, the counter advances, and on the ticks where
the advanced counter is a multiple of 1024 `GyroSmallBias` is subtracted as
well. -/
theorem jitter_gate (s : SimState) (raw : Int) :
    (-32768 ≤ raw - s.GyroBias ∧ raw - s.GyroBias ≤ 32767 →
      gyroDelta s raw = raw - s.GyroBias) ∧
    (|gyroDelta s raw| ≤ GyroJitterRange →
      (gyroSimTick s raw).GyroRawFiltered = s.GyroRawFiltered ∧
        (gyroSimTick s raw).GyroJitterCycles = s.GyroJitterCycles) ∧
    (¬ |gyroDelta s raw| ≤ GyroJitterRange →
      (gyroSimTick s raw).GyroRawFiltered
          = s.GyroRawFiltered + gyroDelta s raw
            - (if Int.tmod (s.GyroJitterCycles + 1) 1024 = 0 then s.GyroSmallBias else 0) ∧
        (gyroSimTick s raw).GyroJitterCycles = s.GyroJitterCycles + 1) := by
  refine ⟨fun h => toInt16_of_fits _ h.1 h.2, ?_, ?_⟩
  · intro h
    have h' := abs_le.mp h
    have hg : ¬ (gyroDelta s raw < -GyroJitterRange ∨ gyroDelta s raw > GyroJitterRange) := by
      rintro (h1 | h1) <;> omega
    simp [gyroSimTick, jitterGate, hg]
  · intro h
    have hg : gyroDelta s raw < -GyroJitterRange ∨ gyroDelta s raw > GyroJitterRange := by
      by_contra hc
      push_neg at hc
      exact h (abs_le.mpr ⟨by omega, by omega⟩)
    by_cases hm : Int.tmod (s.GyroJitterCycles + 1) 1024 = 0
    · simp [gyroSimTick, jitterGate, hg, hm]
    · simp [gyroSimTick, jitterGate, hg, hm]

/-- C5 (witness): the sample 2 on the state left by 1024 samples 0. -/
theorem jitter_gate_witness :
    |gyroDelta (calibrate (List.replicate 1024 (0 : Int))) 2| ≤ GyroJitterRange ∧
    (gyroSimTick (calibrate (List.replicate 1024 (0 : Int))) 2).GyroRawFiltered
      = (calibrate (List.replicate 1024 (0 : Int))).GyroRawFiltered := by
  have h : |gyroDelta (calibrate (List.replicate 1024 (0 : Int))) 2| ≤ GyroJitterRange := by
    rw [calibrate_zeros]; decide
  exact ⟨h, ((jitter_gate (calibrate (List.replicate 1024 (0 : Int))) 2).2.1 h).1⟩

theorem sum_bounds (a b : Int) (l : List Int) (h : ∀ x ∈ l, a ≤ x ∧ x ≤ b) :
    (l.length : Int) * a ≤ l.sum ∧ l.sum ≤ (l.length : Int) * b := by
  induction l with
  | nil => simp
  | cons x xs ih =>
    have hx := h x (List.mem_cons_self _ _)
    have hxs := ih (fun y hy => h y (List.mem_cons_of_mem _ hy))
    simp only [List.length_cons, List.sum_cons, Nat.cast_add, Nat.cast_one]
    constructor
    · nlinarith [hx.1, hxs.1]
    · nlinarith [hx.2, hxs.2]

theorem tdiv_1024_bounds (a b S : Int) (h1 : 1024 * a ≤ S) (h2 : S ≤ 1024 * b) :
    a ≤ Int.tdiv S 1024 ∧ Int.tdiv S 1024 ≤ b := by
  by_cases h : 0 ≤ S
  · rw [Int.tdiv_eq_ediv h (by norm_num)]
    omega
  · have h3 : Int.tdiv S 1024 = -Int.tdiv (-S) 1024 := by
      rw [Int.neg_tdiv, neg_neg]
    rw [h3, Int.tdiv_eq_ediv (by omega) (by norm_num)]
    omega

theorem calibrate_bias_bounds (a b : Int) (window : List Int) (hN : window.length = 1024)
    (h : ∀ x ∈ window, a ≤ x ∧ x ≤ b) :
    a ≤ (calibrate window).GyroBias ∧ (calibrate window).GyroBias ≤ b := by
  have hs := sum_bounds a b window h
  rw [hN] at hs
  simp only [calibrate, biasLoop_eq_sum]
  exact tdiv_1024_bounds a b _ (by simpa using hs.1) (by simpa using hs.2)

theorem gyroSimTick_rejected (s : SimState) (raw : Int)
    (h1 : -4 ≤ raw - s.GyroBias) (h2 : raw - s.GyroBias ≤ 4) :
    gyroSimTick s raw = { s with GyroValue := clipValue s.GyroRawFiltered } := by
  have hd : gyroDelta s raw = raw - s.GyroBias :=
    toInt16_of_fits _ (by omega) (by omega)
  have hg : ¬ (raw - s.GyroBias < -GyroJitterRange ∨ raw - s.GyroBias > GyroJitterRange) := by
    unfold GyroJitterRange
    omega
  simp [gyroSimTick, jitterGate, hd, hg]

theorem gyroSimLoop_rejected (running : List Int) :
    ∀ s : SimState, s.GyroRawFiltered = 0 → s.GyroValue = 0 →
      (∀ x ∈ running, -4 ≤ x - s.GyroBias ∧ x - s.GyroBias ≤ 4) →
      gyroSimLoop s running = s := by
  induction running with
  | nil => intro s _ _ _; rfl
  | cons x xs ih =>
    intro s hr hv h
    have hx := h x (List.mem_cons_self _ _)
    have ht : gyroSimTick s x = s := by
      have hc : clipValue 0 = 0 := by decide
      rw [gyroSimTick_rejected s x hx.1 hx.2]
      obtain ⟨b, sb, r, cy, v⟩ := s
      simp only at hr hv
      subst hr hv
      show (⟨b, sb, 0, cy, clipValue 0⟩ : SimState) = ⟨b, sb, 0, cy, 0⟩
      rw [hc]
    show gyroSimLoop (gyroSimTick s x) xs = s
    rw [ht]
    exact ih s hr hv (fun y hy => h y (List.mem_cons_of_mem _ hy))

set_option maxRecDepth 8000 in
/-- C6: the stream of 1024 calibration samples 0 followed by 22 running
samples 6 stays within 3 of the constant 3, below the threshold 4, yet every
running sample passes the gate: `GyroRawFiltered` ends at 132 and the
published `GyroValue` at 1. -/
theorem stationary_stream_integrated :
    (∀ x ∈ List.replicate 1024 (0 : Int) ++ List.replicate 22 6, |x - 3| < GyroJitterRange) ∧
    gyroSim (List.replicate 1024 (0 : Int) ++ List.replicate 22 6)
      = some ⟨0, 0, 132, 22, 1⟩ ∧
    gyroSim (List.replicate 1024 (0 : Int) ++ [6]) = some ⟨0, 0, 6, 1, 0⟩ := by
  refine ⟨?_, ?_, ?_⟩
  · intro x hx
    rw [List.mem_append, List.mem_replicate, List.mem_replicate] at hx
    rcases hx with ⟨_, rfl⟩ | ⟨_, rfl⟩ <;> decide
  · rw [gyroSim_append _ _ (List.length_replicate _ _), calibrate_zeros]
    decide
  · rw [gyroSim_append _ _ (List.length_replicate _ _), calibrate_zeros]
    decide

/-- C6 (amended): a stationary stream is rejected by the jitter gate when its
noise is at most 2, half of `GyroJitterRange`: for every constant c, every
calibration window of 1024 samples and every sequence of running samples, all
within 2 of c, `GyroBias` is within 2 of c and after every tick of the running
phase `GyroRawFiltered` is 0, no sample has been integrated and the published
`GyroValue` is 0. -/
theorem stationary_stream_rejected (c : Int) (window running : List Int)
    (hN : window.length = 1024) (h : ∀ x ∈ window ++ running, |x - c| ≤ 2)
    (k : Nat) :
    ∃ s : SimState, gyroSim (window ++ running.take k) = some s ∧
      |s.GyroBias - c| ≤ 2 ∧ s.GyroRawFiltered = 0 ∧ s.GyroJitterCycles = 0 ∧
      s.GyroValue = 0 := by
  have hw : ∀ x ∈ window, c - 2 ≤ x ∧ x ≤ c + 2 := by
    intro x hx
    have := abs_le.mp (h x (List.mem_append_left _ hx))
    omega
  have hb := calibrate_bias_bounds (c - 2) (c + 2) window hN hw
  have hr : ∀ x ∈ running.take k,
      -4 ≤ x - (calibrate window).GyroBias ∧ x - (calibrate window).GyroBias ≤ 4 := by
    intro x hx
    have := abs_le.mp (h x (List.mem_append_right _ (List.mem_of_mem_take hx)))
    omega
  have hl := gyroSimLoop_rejected (running.take k) (calibrate window) rfl rfl hr
  refine ⟨calibrate window, ?_, abs_le.mpr ⟨by omega, by omega⟩, rfl, rfl, rfl⟩
  rw [gyroSim_append _ _ hN, hl]

/-- C6 (witness): 1024 calibration samples 100 and the running samples 102,
98, 100, after the second of them. -/
theorem stationary_stream_rejected_witness :
    (List.replicate 1024 (100 : Int)).length = 1024 ∧
    (∀ x ∈ List.replicate 1024 (100 : Int) ++ [102, 98, 100], |x - 100| ≤ 2) ∧
    ∃ s : SimState,
      gyroSim (List.replicate 1024 (100 : Int) ++ ([102, 98, 100] : List Int).take 2) = some s ∧
      |s.GyroBias - 100| ≤ 2 ∧ s.GyroRawFiltered = 0 ∧ s.GyroJitterCycles = 0 ∧
      s.GyroValue = 0 := by
  have h : ∀ x ∈ List.replicate 1024 (100 : Int) ++ [102, 98, 100], |x - 100| ≤ 2 := by
    intro x hx
    rw [List.mem_append, List.mem_replicate] at hx
    rcases hx with ⟨_, rfl⟩ | hx
    · decide
    · simp only [List.mem_cons, List.mem_nil_iff, or_false] at hx
      rcases hx with rfl | rfl | rfl <;> decide
  exact ⟨List.length_replicate _ _, h,
    stationary_stream_rejected 100 (List.replicate 1024 (100 : Int)) [102, 98, 100]
      (List.length_replicate _ _) h 2⟩

end GyroSim

/-! ## gyroSim.c : the published value and the bias compensation -/

namespace GyroSim

theorem tdiv_of_nonneg (a b : Int) (ha : 0 ≤ a) (hb : 0 ≤ b) : Int.tdiv a b = a / b :=
  Int.tdiv_eq_ediv ha hb

theorem tdiv_of_neg (a b : Int) (ha : a ≤ 0) (hb : 0 ≤ b) : Int.tdiv a b = -((-a) / b) := by
  have h : Int.tdiv a b = -Int.tdiv (-a) b := by
    rw [Int.neg_tdiv, neg_neg]
  rw [h, Int.tdiv_eq_ediv (by omega) hb]

theorem clipValue_eq_tmod (acc : Int) :
    clipValue acc = Int.tmod (Int.tdiv acc GyroSensorScale) GyroFullScale := by
  unfold clipValue
  dsimp only
  rw [Int.tmod_def]
  split_ifs with h
  · ring
  · have h' : |Int.tdiv acc GyroSensorScale| < GyroFullScale := not_le.mp h
    have hb := abs_lt.mp h'
    have hz : Int.tdiv (Int.tdiv acc GyroSensorScale) GyroFullScale = 0 := by
      unfold GyroFullScale at hb ⊢
      by_cases hv : 0 ≤ Int.tdiv acc GyroSensorScale
      · rw [tdiv_of_nonneg _ _ hv (by norm_num)]; omega
      · rw [tdiv_of_neg _ _ (by omega) (by norm_num)]; omega
    rw [hz]; ring

theorem clipValue_bounds (acc : Int) :
    -3600 < clipValue acc ∧ clipValue acc < 3600 ∧
      (0 ≤ acc → 0 ≤ clipValue acc) ∧ (acc ≤ 0 → clipValue acc ≤ 0) := by
  rw [clipValue_eq_tmod, Int.tmod_def]
  unfold GyroSensorScale GyroFullScale
  by_cases ha : 0 ≤ acc
  · rw [tdiv_of_nonneg acc 130 ha (by norm_num)]
    rw [tdiv_of_nonneg (acc / 130) 3600 (by omega) (by norm_num)]
    omega
  · rw [tdiv_of_neg acc 130 (by omega) (by norm_num)]
    rw [tdiv_of_neg (-(-acc / 130)) 3600 (by omega) (by norm_num)]
    omega

theorem gyroSimLoop_append (s : SimState) (a b : List Int) :
    gyroSimLoop s (a ++ b) = gyroSimLoop (gyroSimLoop s a) b := by
  simp [gyroSimLoop, List.foldl_append]

theorem gyroSimTick_zero_bias (acc cyc val raw : Int) (h1 : 4 < raw) (h2 : raw ≤ 32767) :
    gyroSimTick ⟨0, 0, acc, cyc, val⟩ raw = ⟨0, 0, acc + raw, cyc + 1, clipValue (acc + raw)⟩ := by
  have hd : gyroDelta ⟨0, 0, acc, cyc, val⟩ raw = raw := by
    unfold gyroDelta
    rw [toInt16_of_fits _ (by simp; omega) (by simp; omega)]
    simp
  have hg : raw < -GyroJitterRange ∨ raw > GyroJitterRange := by
    unfold GyroJitterRange; omega
  simp [gyroSimTick, jitterGate, hd, hg]

theorem gyroSimLoop_replicate_4095 (k : Nat) :
    ∀ acc cyc val : Int,
      gyroSimLoop ⟨0, 0, acc, cyc, val⟩ (List.replicate (k + 1) 4095)
        = ⟨0, 0, acc + 4095 * ((k : Int) + 1), cyc + ((k : Int) + 1),
            clipValue (acc + 4095 * ((k : Int) + 1))⟩ := by
  induction k with
  | zero =>
    intro acc cyc val
    show gyroSimLoop (gyroSimTick ⟨0, 0, acc, cyc, val⟩ 4095) [] = _
    rw [gyroSimTick_zero_bias _ _ _ _ (by norm_num) (by norm_num)]
    simp [gyroSimLoop]
  | succ k ih =>
    intro acc cyc val
    show gyroSimLoop (gyroSimTick ⟨0, 0, acc, cyc, val⟩ 4095) (List.replicate (k + 1) 4095) = _
    rw [gyroSimTick_zero_bias _ _ _ _ (by norm_num) (by norm_num), ih]
    have e1 : acc + 4095 + 4095 * ((k : Int) + 1) = acc + 4095 * (((k + 1 : Nat) : Int) + 1) := by
      push_cast; ring
    have e2 : cyc + 1 + ((k : Int) + 1) = cyc + (((k + 1 : Nat) : Int) + 1) := by
      push_cast; ring
    rw [e1, e2]

/-- C11: after a calibration on 1024 samples 0, 115 samples 4095 bring
`GyroRawFiltered` to 470925, whose scaled value 3622 reaches the full scale:
the tick publishes 22 and leaves the accumulator at 470925, and after a
further tick with the sample 0 the accumulator is still 470925, its scaled
magnitude still 3622. -/
theorem clip_leaves_accumulator :
    gyroSim (List.replicate 1024 (0 : Int) ++ List.replicate 115 4095)
      = some ⟨0, 0, 470925, 115, 22⟩ ∧
    gyroSim (List.replicate 1024 (0 : Int) ++ (List.replicate 115 4095 ++ [0]))
      = some ⟨0, 0, 470925, 115, 22⟩ ∧
    |Int.tdiv 470925 GyroSensorScale| = 3622 ∧
    ¬ (|Int.tdiv 470925 GyroSensorScale| < GyroFullScale) := by
  have h1 : gyroSimLoop ⟨0, 0, 0, 0, 0⟩ (List.replicate 115 4095) = ⟨0, 0, 470925, 115, 22⟩ := by
    have h := gyroSimLoop_replicate_4095 114 0 0 0
    have hc : clipValue 470925 = 22 := by decide
    simpa [hc] using h
  refine ⟨?_, ?_, by decide, by decide⟩
  · rw [gyroSim_append _ _ (List.length_replicate _ _), calibrate_zeros, h1]
  · rw [gyroSim_append _ _ (List.length_replicate _ _), calibrate_zeros, gyroSimLoop_append, h1]
    decide

/-- C11 (amended): full-scale clipping in `gyroSim` reduces the published
value only. On every tick the accumulator carried to the next tick is exactly
what the jitter gate left, whatever its scaled magnitude; on a tick where the
scaled value `GyroRawFiltered / 130` reaches or exceeds `GyroFullScale` the
published `GyroValue` is that value less trunc(value / 3600) * 3600; and the
magnitude of the published `GyroValue` is below 3600 after every tick. -/
theorem clip_publishes_only (s : SimState) (raw : Int) :
    (gyroSimTick s raw).GyroRawFiltered = (jitterGate s (gyroDelta s raw)).GyroRawFiltered ∧
    (|Int.tdiv (gyroSimTick s raw).GyroRawFiltered GyroSensorScale| ≥ GyroFullScale →
      (gyroSimTick s raw).GyroValue
        = Int.tdiv (gyroSimTick s raw).GyroRawFiltered GyroSensorScale
          - Int.tdiv (Int.tdiv (gyroSimTick s raw).GyroRawFiltered GyroSensorScale)
              GyroFullScale * GyroFullScale) ∧
    |(gyroSimTick s raw).GyroValue| < GyroFullScale := by
  refine ⟨rfl, ?_, ?_⟩
  · intro h
    show clipValue (jitterGate s (gyroDelta s raw)).GyroRawFiltered = _
    have h' : |Int.tdiv (jitterGate s (gyroDelta s raw)).GyroRawFiltered GyroSensorScale|
        ≥ GyroFullScale := h
    unfold clipValue
    dsimp only
    rw [if_pos h']
    rfl
  · show |clipValue (jitterGate s (gyroDelta s raw)).GyroRawFiltered| < GyroFullScale
    have hb := clipValue_bounds (jitterGate s (gyroDelta s raw)).GyroRawFiltered
    unfold GyroFullScale
    exact abs_lt.mpr ⟨hb.1, hb.2.1⟩

/-- C11 (witness): the 115th sample 4095 after a calibration on samples 0. -/
theorem clip_publishes_only_witness :
    |Int.tdiv (gyroSimTick ⟨0, 0, 466830, 114, 3591⟩ 4095).GyroRawFiltered GyroSensorScale|
        ≥ GyroFullScale ∧
      (gyroSimTick ⟨0, 0, 466830, 114, 3591⟩ 4095).GyroValue
        = Int.tdiv (gyroSimTick ⟨0, 0, 466830, 114, 3591⟩ 4095).GyroRawFiltered GyroSensorScale
          - Int.tdiv
              (Int.tdiv (gyroSimTick ⟨0, 0, 466830, 114, 3591⟩ 4095).GyroRawFiltered
                GyroSensorScale)
              GyroFullScale * GyroFullScale := by
  have h : |Int.tdiv (gyroSimTick ⟨0, 0, 466830, 114, 3591⟩ 4095).GyroRawFiltered
      GyroSensorScale| ≥ GyroFullScale := by
    decide
  exact ⟨h, (clip_publishes_only ⟨0, 0, 466830, 114, 3591⟩ 4095).2.1 h⟩

/-- C12: after a calibration on 1024 samples 0, the sample -50 leaves the
negative accumulator -50, and the published `GyroValue` is 0, which is the
non-negative modulo of `GyroRawFiltered / 130` by 3600. -/
theorem negative_accumulator_publishes_modulo :
    gyroSim (List.replicate 1024 (0 : Int) ++ [-50]) = some ⟨0, 0, -50, 1, 0⟩ ∧
    (⟨0, 0, -50, 1, 0⟩ : SimState).GyroRawFiltered < 0 ∧
    (⟨0, 0, -50, 1, 0⟩ : SimState).GyroValue
      = Int.tdiv (⟨0, 0, -50, 1, 0⟩ : SimState).GyroRawFiltered GyroSensorScale
        % GyroFullScale := by
  refine ⟨?_, by decide, by decide⟩
  rw [gyroSim_append _ _ (List.length_replicate _ _), calibrate_zeros]
  decide

/-- C12 (amended): after every tick of `gyroSim` the published `GyroValue` is
a function of the current accumulator only. With v = `GyroRawFiltered / 130`
truncated toward zero, `GyroValue` = v - (v / 3600) * 3600 with truncating
division, the truncated remainder of v by 3600, equal to v when |v| < 3600;
so |`GyroValue`| < 3600 and `GyroValue` is zero or has the sign of v; for a
negative accumulator it lies in (-3600, 0], and it differs from the
non-negative modulo exactly when it is not zero (the accumulator -130
publishes -1, not 3599). -/
theorem published_value (s : SimState) (raw : Int) :
    (gyroSimTick s raw).GyroValue
      = Int.tdiv (gyroSimTick s raw).GyroRawFiltered GyroSensorScale
        - Int.tdiv (Int.tdiv (gyroSimTick s raw).GyroRawFiltered GyroSensorScale)
            GyroFullScale * GyroFullScale ∧
    (gyroSimTick s raw).GyroValue
      = Int.tmod (Int.tdiv (gyroSimTick s raw).GyroRawFiltered GyroSensorScale) GyroFullScale ∧
    (|Int.tdiv (gyroSimTick s raw).GyroRawFiltered GyroSensorScale| < GyroFullScale →
      (gyroSimTick s raw).GyroValue
        = Int.tdiv (gyroSimTick s raw).GyroRawFiltered GyroSensorScale) ∧
    |(gyroSimTick s raw).GyroValue| < 3600 ∧
    (0 ≤ Int.tdiv (gyroSimTick s raw).GyroRawFiltered GyroSensorScale →
      0 ≤ (gyroSimTick s raw).GyroValue) ∧
    (Int.tdiv (gyroSimTick s raw).GyroRawFiltered GyroSensorScale ≤ 0 →
      (gyroSimTick s raw).GyroValue ≤ 0) ∧
    ((gyroSimTick s raw).GyroRawFiltered < 0 →
      -3600 < (gyroSimTick s raw).GyroValue ∧ (gyroSimTick s raw).GyroValue ≤ 0 ∧
        ((gyroSimTick s raw).GyroValue
            ≠ Int.tdiv (gyroSimTick s raw).GyroRawFiltered GyroSensorScale % GyroFullScale
          ↔ (gyroSimTick s raw).GyroValue ≠ 0)) ∧
    (clipValue (-130) = -1 ∧ Int.tdiv (-130) GyroSensorScale % GyroFullScale = 3599) := by
  have hv : (gyroSimTick s raw).GyroValue = clipValue (gyroSimTick s raw).GyroRawFiltered := rfl
  generalize (gyroSimTick s raw).GyroRawFiltered = acc at hv
  rw [hv]
  have hb := clipValue_bounds acc
  have ht := clipValue_eq_tmod acc
  have hdef : clipValue acc = Int.tdiv acc GyroSensorScale
      - Int.tdiv (Int.tdiv acc GyroSensorScale) GyroFullScale * GyroFullScale := by
    rw [ht, Int.tmod_def]; ring
  refine ⟨hdef, ht, ?_, abs_lt.mpr ⟨hb.1, hb.2.1⟩, ?_, ?_, ?_, by decide, by decide⟩
  · intro h
    unfold clipValue
    dsimp only
    rw [if_neg (not_le.mpr h)]
  · intro h
    rw [ht]
    exact Int.tmod_nonneg _ h
  · intro h
    by_cases ha : acc ≤ 0
    · exact hb.2.2.2 ha
    · have h1 := tdiv_of_nonneg acc GyroSensorScale (by omega) (by decide)
      have h2 : 0 ≤ acc / GyroSensorScale := Int.ediv_nonneg (by omega) (by decide)
      have hv0 : Int.tdiv acc GyroSensorScale = 0 := by omega
      rw [ht, hv0]
      decide
  · intro h
    refine ⟨hb.1, hb.2.2.2 (le_of_lt h), ?_, ?_⟩
    · intro hne h0
      apply hne
      rw [h0]
      rw [h0] at hdef
      unfold GyroFullScale at hdef ⊢
      omega
    · intro hne heq
      have hnn : 0 ≤ Int.tdiv acc GyroSensorScale % GyroFullScale :=
        Int.emod_nonneg _ (by decide)
      have hle := hb.2.2.2 (le_of_lt h)
      omega

end GyroSim

namespace GyroSim

theorem gyroSimTick_bias (s : SimState) (raw : Int) :
    (gyroSimTick s raw).GyroBias = s.GyroBias ∧
      (gyroSimTick s raw).GyroSmallBias = s.GyroSmallBias := by
  unfold gyroSimTick jitterGate
  split_ifs <;> exact ⟨rfl, rfl⟩

theorem gyroSimLoop_cons (s : SimState) (x : Int) (xs : List Int) :
    gyroSimLoop s (x :: xs) = gyroSimLoop (gyroSimTick s x) xs := rfl

theorem gyroSimLoop_bias (samples : List Int) :
    ∀ s : SimState, (gyroSimLoop s samples).GyroBias = s.GyroBias ∧
      (gyroSimLoop s samples).GyroSmallBias = s.GyroSmallBias := by
  induction samples with
  | nil => intro s; exact ⟨rfl, rfl⟩
  | cons x xs ih =>
    intro s
    rw [gyroSimLoop_cons, (ih (gyroSimTick s x)).1, (ih (gyroSimTick s x)).2]
    exact gyroSimTick_bias s x

theorem cycles_div_step (c : Int) (h : 0 ≤ c) :
    (Int.tmod (c + 1) 1024 = 0 → (c + 1) / 1024 = c / 1024 + 1) ∧
      (¬ Int.tmod (c + 1) 1024 = 0 → (c + 1) / 1024 = c / 1024) := by
  rw [Int.tmod_eq_emod (by omega) (by norm_num)]
  constructor <;> intro h1 <;> omega

theorem gyroSimLoop_accumulator (running : List Int) :
    ∀ s : SimState, 0 ≤ s.GyroJitterCycles →
      (∀ r ∈ running, -32768 ≤ r - s.GyroBias ∧ r - s.GyroBias ≤ 32767) →
      (gyroSimLoop s running).GyroJitterCycles
          = s.GyroJitterCycles
            + ((running.filter fun r => decide (r - s.GyroBias < -GyroJitterRange
                ∨ r - s.GyroBias > GyroJitterRange)).length : Int) ∧
        (gyroSimLoop s running).GyroRawFiltered
          = s.GyroRawFiltered
            + (running.filter fun r => decide (r - s.GyroBias < -GyroJitterRange
                ∨ r - s.GyroBias > GyroJitterRange)).sum
            - ((running.filter fun r => decide (r - s.GyroBias < -GyroJitterRange
                ∨ r - s.GyroBias > GyroJitterRange)).length : Int) * s.GyroBias
            - ((gyroSimLoop s running).GyroJitterCycles / 1024 - s.GyroJitterCycles / 1024)
              * s.GyroSmallBias := by
  induction running with
  | nil => intro s _ _; simp [gyroSimLoop]
  | cons x xs ih =>
    intro s hc hfit
    have hx := hfit x (List.mem_cons_self _ _)
    have hd : gyroDelta s x = x - s.GyroBias := toInt16_of_fits _ hx.1 hx.2
    have hb := gyroSimTick_bias s x
    rw [gyroSimLoop_cons]
    by_cases hg : x - s.GyroBias < -GyroJitterRange ∨ x - s.GyroBias > GyroJitterRange
    · have hcy : (gyroSimTick s x).GyroJitterCycles = s.GyroJitterCycles + 1 := by
        simp [gyroSimTick, jitterGate, hd, hg]
      have hstep := cycles_div_step s.GyroJitterCycles hc
      have hacc : (gyroSimTick s x).GyroRawFiltered
          = s.GyroRawFiltered + (x - s.GyroBias)
            - ((s.GyroJitterCycles + 1) / 1024 - s.GyroJitterCycles / 1024) * s.GyroSmallBias := by
        by_cases hm : Int.tmod (s.GyroJitterCycles + 1) 1024 = 0
        · rw [hstep.1 hm]
          simp [gyroSimTick, jitterGate, hd, hg, hm]
        · rw [hstep.2 hm]
          simp [gyroSimTick, jitterGate, hd, hg, hm]
      have h := ih (gyroSimTick s x) (by rw [hcy]; omega)
        (by rw [hb.1]; exact fun r hr => hfit r (List.mem_cons_of_mem _ hr))
      rw [hb.1, hb.2, hcy, hacc] at h
      rw [List.filter_cons_of_pos (by simpa using hg)]
      simp only [List.length_cons, List.sum_cons, Nat.cast_add, Nat.cast_one]
      generalize (gyroSimLoop (gyroSimTick s x) xs).GyroJitterCycles = cf at h ⊢
      generalize (gyroSimLoop (gyroSimTick s x) xs).GyroRawFiltered = af at h ⊢
      generalize cf / 1024 = q at h ⊢
      generalize (s.GyroJitterCycles + 1) / 1024 = q1 at h ⊢
      generalize s.GyroJitterCycles / 1024 = q0 at h ⊢
      refine ⟨by rw [h.1]; ring, ?_⟩
      rw [h.2]
      ring
    · have hcy : (gyroSimTick s x).GyroJitterCycles = s.GyroJitterCycles := by
        simp [gyroSimTick, jitterGate, hd, hg]
      have hacc : (gyroSimTick s x).GyroRawFiltered = s.GyroRawFiltered := by
        simp [gyroSimTick, jitterGate, hd, hg]
      have h := ih (gyroSimTick s x) (by rw [hcy]; exact hc)
        (by rw [hb.1]; exact fun r hr => hfit r (List.mem_cons_of_mem _ hr))
      rw [hb.1, hb.2, hcy, hacc] at h
      rw [List.filter_cons_of_neg (by simpa using hg)]
      exact h

/-- C14: bias-remainder compensation in `gyroSim`. On every tick the cycle
counter advances exactly when the sample passes the jitter gate, and
`GyroSmallBias` is subtracted on exactly the passing ticks that make the
counter a multiple of 1024. Absent integer overflow (every `raw - GyroBias`
fits the 16-bit `GyroDelta`), with `ticks` the running samples that passed
the gate, the counter is their number n and `GyroRawFiltered` is their sum
less n * `GyroBias` and less (n / 1024) * `GyroSmallBias`; so after the
k*1024-th accumulated tick `GyroRawFiltered` is the sum of the accumulated
samples less k * `GyroBiasAcc`, where `GyroBiasAcc` = 1024 * `GyroBias` +
`GyroSmallBias` is the calibration sum. -/
theorem bias_compensation (window running ticks : List Int) (hN : window.length = 1024)
    (hfit : ∀ r ∈ running, -32768 ≤ r - (calibrate window).GyroBias
      ∧ r - (calibrate window).GyroBias ≤ 32767)
    (hticks : ticks = running.filter fun r =>
      decide (r - (calibrate window).GyroBias < -GyroJitterRange
        ∨ r - (calibrate window).GyroBias > GyroJitterRange)) :
    (∀ (s : SimState) (raw : Int),
      (gyroSimTick s raw).GyroJitterCycles
          = s.GyroJitterCycles
            + (if gyroDelta s raw < -GyroJitterRange ∨ gyroDelta s raw > GyroJitterRange
                then 1 else 0) ∧
        (gyroSimTick s raw).GyroRawFiltered
          = s.GyroRawFiltered
            + (if gyroDelta s raw < -GyroJitterRange ∨ gyroDelta s raw > GyroJitterRange
                then gyroDelta s raw
                  - (if Int.tmod (s.GyroJitterCycles + 1) 1024 = 0 then s.GyroSmallBias else 0)
                else 0)) ∧
    1024 * (calibrate window).GyroBias + (calibrate window).GyroSmallBias = biasLoop window ∧
    ∃ s : SimState, gyroSim (window ++ running) = some s ∧
      s.GyroJitterCycles = (ticks.length : Int) ∧
      s.GyroRawFiltered
        = ticks.sum - (ticks.length : Int) * (calibrate window).GyroBias
          - (ticks.length : Int) / 1024 * (calibrate window).GyroSmallBias ∧
      ∀ k : Nat, ticks.length = k * 1024 →
        s.GyroRawFiltered = ticks.sum - (k : Int) * biasLoop window := by
  have hsmall : 1024 * (calibrate window).GyroBias + (calibrate window).GyroSmallBias
      = biasLoop window := by
    simp only [calibrate]; ring
  refine ⟨?_, hsmall, ?_⟩
  · intro s raw
    by_cases hg : gyroDelta s raw < -GyroJitterRange ∨ gyroDelta s raw > GyroJitterRange
    · by_cases hm : Int.tmod (s.GyroJitterCycles + 1) 1024 = 0
      · rw [if_pos hg, if_pos hg, if_pos hm]
        simp only [gyroSimTick, jitterGate, if_pos hg, if_pos hm]
        exact ⟨trivial, by ring⟩
      · rw [if_pos hg, if_pos hg, if_neg hm]
        simp only [gyroSimTick, jitterGate, if_pos hg, if_neg hm]
        exact ⟨trivial, by ring⟩
    · rw [if_neg hg, if_neg hg]
      simp only [gyroSimTick, jitterGate, if_neg hg]
      exact ⟨by ring, by ring⟩
  · have h := gyroSimLoop_accumulator running (calibrate window) (le_refl _) hfit
    rw [← hticks] at h
    have hc0 : (calibrate window).GyroJitterCycles = 0 := rfl
    have ha0 : (calibrate window).GyroRawFiltered = 0 := rfl
    rw [hc0, ha0] at h
    have hcy : (gyroSimLoop (calibrate window) running).GyroJitterCycles
        = (ticks.length : Int) := by
      rw [h.1]; ring
    have hacc : (gyroSimLoop (calibrate window) running).GyroRawFiltered
        = ticks.sum - (ticks.length : Int) * (calibrate window).GyroBias
          - (ticks.length : Int) / 1024 * (calibrate window).GyroSmallBias := by
      rw [h.2, hcy]
      norm_num
    refine ⟨gyroSimLoop (calibrate window) running, gyroSim_append _ _ hN, hcy, hacc, ?_⟩
    intro k hk
    have hq : (ticks.length : Int) / 1024 = (k : Int) := by
      rw [hk]; push_cast
      exact Int.mul_ediv_cancel _ (by norm_num)
    have hl : (ticks.length : Int) = (k : Int) * 1024 := by
      rw [hk]; push_cast; ring
    rw [hacc, hq, hl, ← hsmall]
    ring

/-- C14 (witness): a calibration on 1024 samples 0 and the running samples
10, 2, 20, of which 10 and 20 pass the gate. -/
theorem bias_compensation_witness :
    (List.replicate 1024 (0 : Int)).length = 1024 ∧
    (∀ r ∈ ([10, 2, 20] : List Int),
      -32768 ≤ r - (calibrate (List.replicate 1024 (0 : Int))).GyroBias
        ∧ r - (calibrate (List.replicate 1024 (0 : Int))).GyroBias ≤ 32767) ∧
    ([10, 20] : List Int) = ([10, 2, 20] : List Int).filter (fun r =>
      decide (r - (calibrate (List.replicate 1024 (0 : Int))).GyroBias < -GyroJitterRange
        ∨ r - (calibrate (List.replicate 1024 (0 : Int))).GyroBias > GyroJitterRange)) ∧
    ∃ s : SimState, gyroSim (List.replicate 1024 (0 : Int) ++ [10, 2, 20]) = some s ∧
      s.GyroJitterCycles = (([10, 20] : List Int).length : Int) := by
  have h1 : ∀ r ∈ ([10, 2, 20] : List Int),
      -32768 ≤ r - (calibrate (List.replicate 1024 (0 : Int))).GyroBias
        ∧ r - (calibrate (List.replicate 1024 (0 : Int))).GyroBias ≤ 32767 := by
    rw [calibrate_zeros]
    decide
  have h2 : ([10, 20] : List Int) = ([10, 2, 20] : List Int).filter (fun r =>
      decide (r - (calibrate (List.replicate 1024 (0 : Int))).GyroBias < -GyroJitterRange
        ∨ r - (calibrate (List.replicate 1024 (0 : Int))).GyroBias > GyroJitterRange)) := by
    rw [calibrate_zeros]
    decide
  obtain ⟨s, hs, hc, _⟩ :=
    (bias_compensation (List.replicate 1024 (0 : Int)) [10, 2, 20] [10, 20]
      (List.length_replicate _ _) h1 h2).2.2
  exact ⟨List.length_replicate _ _, h1, h2, s, hs, hc⟩

end GyroSim

namespace GyroSim

theorem exists_min_max (l : List Int) (h : l ≠ []) :
    ∃ lo ∈ l, ∃ hi ∈ l, ∀ x ∈ l, lo ≤ x ∧ x ≤ hi := by
  induction l with
  | nil => exact absurd rfl h
  | cons a as ih =>
    by_cases has : as = []
    · subst has
      refine ⟨a, List.mem_cons_self _ _, a, List.mem_cons_self _ _, ?_⟩
      intro x hx
      rw [List.mem_singleton] at hx
      subst hx
      exact ⟨le_refl _, le_refl _⟩
    · obtain ⟨lo, hlo, hi, hhi, hall⟩ := ih has
      have hlo' : ∃ m ∈ a :: as, m ≤ a ∧ m ≤ lo := by
        by_cases hc : a ≤ lo
        · exact ⟨a, List.mem_cons_self _ _, le_refl _, hc⟩
        · exact ⟨lo, List.mem_cons_of_mem _ hlo, by omega, le_refl _⟩
      have hhi' : ∃ m ∈ a :: as, a ≤ m ∧ hi ≤ m := by
        by_cases hc : hi ≤ a
        · exact ⟨a, List.mem_cons_self _ _, le_refl _, hc⟩
        · exact ⟨hi, List.mem_cons_of_mem _ hhi, by omega, le_refl _⟩
      obtain ⟨m, hm, hma, hml⟩ := hlo'
      obtain ⟨M, hM, hMa, hMh⟩ := hhi'
      refine ⟨m, hm, M, hM, ?_⟩
      intro x hx
      rcases List.mem_cons.mp hx with rfl | hx
      · exact ⟨hma, hMa⟩
      · have := hall x hx
        omega

/-- C18: calibration result bounds in `gyroSim`. For every window of 1024
integer samples with sum S, `GyroBias * 1024 + GyroSmallBias = S`,
`|GyroSmallBias| < 1024`, `GyroSmallBias` is zero or has the sign of S
(`0 ≤ GyroSmallBias < 1024` when `S ≥ 0`, `-1024 < GyroSmallBias ≤ 0` when
`S ≤ 0`), and `GyroBias` lies between the least and the greatest sample of
the window. -/
theorem calibration_bounds (window : List Int) (hN : window.length = 1024) :
    ∃ s : SimState, gyroSim window = some s ∧
      s.GyroBias * 1024 + s.GyroSmallBias = window.sum ∧
      |s.GyroSmallBias| < 1024 ∧
      (0 ≤ window.sum → 0 ≤ s.GyroSmallBias ∧ s.GyroSmallBias < 1024) ∧
      (window.sum ≤ 0 → -1024 < s.GyroSmallBias ∧ s.GyroSmallBias ≤ 0) ∧
      ∃ lo ∈ window, ∃ hi ∈ window,
        (∀ x ∈ window, lo ≤ x ∧ x ≤ hi) ∧ lo ≤ s.GyroBias ∧ s.GyroBias ≤ hi := by
  have hne : window ≠ [] := by
    intro h
    rw [h] at hN
    exact absurd hN (by decide)
  have hb : (calibrate window).GyroBias = Int.tdiv window.sum 1024 := by
    simp [calibrate, biasLoop_eq_sum]
  have hs : (calibrate window).GyroSmallBias
      = window.sum - Int.tdiv window.sum 1024 * 1024 := by
    simp [calibrate, biasLoop_eq_sum]
  have hpos : 0 ≤ window.sum → 0 ≤ (calibrate window).GyroSmallBias
      ∧ (calibrate window).GyroSmallBias < 1024 := by
    intro h
    rw [hs, tdiv_of_nonneg _ _ h (by norm_num)]
    omega
  have hneg : window.sum ≤ 0 → -1024 < (calibrate window).GyroSmallBias
      ∧ (calibrate window).GyroSmallBias ≤ 0 := by
    intro h
    rw [hs, tdiv_of_neg _ _ h (by norm_num)]
    omega
  obtain ⟨lo, hlo, hi, hhi, hall⟩ := exists_min_max window hne
  have hbb := calibrate_bias_bounds lo hi window hN hall
  refine ⟨calibrate window, gyroSim_window window hN, ?_, ?_, hpos, hneg,
    lo, hlo, hi, hhi, hall, hbb.1, hbb.2⟩
  · rw [hb, hs]; ring
  · rw [abs_lt]
    by_cases h : 0 ≤ window.sum
    · have := hpos h
      omega
    · have := hneg (by omega)
      omega

/-- C18 (witness): the window of 1023 samples 0 and one sample -1. -/
theorem calibration_bounds_witness :
    (List.replicate 1023 (0 : Int) ++ [-1]).length = 1024 ∧
    ∃ s : SimState, gyroSim (List.replicate 1023 (0 : Int) ++ [-1]) = some s ∧
      s.GyroBias * 1024 + s.GyroSmallBias = (List.replicate 1023 (0 : Int) ++ [-1]).sum ∧
      |s.GyroSmallBias| < 1024 := by
  have hlen : (List.replicate 1023 (0 : Int) ++ [-1]).length = 1024 := by
    rw [List.length_append, List.length_replicate]; rfl
  obtain ⟨s, h1, h2, h3, _⟩ := calibration_bounds (List.replicate 1023 (0 : Int) ++ [-1]) hlen
  exact ⟨hlen, s, h1, h2, h3⟩

theorem in_range_bounds (window running : List Int) (hN : window.length = 1024)
    (hw : ∀ x ∈ window, 0 ≤ x ∧ x ≤ 4095) (hr : ∀ x ∈ running, 0 ≤ x ∧ x ≤ 4095) :
    (∀ n : Nat, 0 ≤ biasLoop (window.take n) ∧ biasLoop (window.take n) ≤ 1024 * 4095) ∧
    (0 ≤ biasLoop window ∧ biasLoop window ≤ 1024 * 4095) ∧
    (1024 * 4095 : Int) < 2 ^ 31 ∧
    (0 ≤ (calibrate window).GyroBias ∧ (calibrate window).GyroBias ≤ 4095) ∧
    ∀ (before after : List Int) (raw : Int), running = before ++ raw :: after →
      (gyroSimLoop (calibrate window) before).GyroBias = (calibrate window).GyroBias ∧
      -4095 ≤ raw - (gyroSimLoop (calibrate window) before).GyroBias ∧
      raw - (gyroSimLoop (calibrate window) before).GyroBias ≤ 4095 ∧
      gyroDelta (gyroSimLoop (calibrate window) before) raw
        = raw - (gyroSimLoop (calibrate window) before).GyroBias := by
  have hpart : ∀ n : Nat,
      0 ≤ biasLoop (window.take n) ∧ biasLoop (window.take n) ≤ 1024 * 4095 := by
    intro n
    have h := sum_bounds 0 4095 (window.take n)
      (fun x hx => hw x (List.mem_of_mem_take hx))
    have hl : ((window.take n).length : Int) ≤ 1024 := by
      have : (window.take n).length ≤ 1024 := by
        rw [List.length_take, hN]; exact Nat.min_le_right _ _
      exact_mod_cast this
    rw [biasLoop_eq_sum]
    constructor
    · linarith [h.1]
    · linarith [h.2]
  have hfull : 0 ≤ biasLoop window ∧ biasLoop window ≤ 1024 * 4095 := by
    have h := hpart 1024
    rwa [← hN, List.take_length] at h
  have hbias := calibrate_bias_bounds 0 4095 window hN hw
  refine ⟨hpart, hfull, by norm_num, hbias, ?_⟩
  intro before after raw hsplit
  have hb := (gyroSimLoop_bias before (calibrate window)).1
  have hraw := hr raw (by rw [hsplit]; exact List.mem_append_right _ (List.mem_cons_self _ _))
  rw [hb]
  refine ⟨rfl, by omega, by omega, ?_⟩
  unfold gyroDelta
  rw [hb]
  exact toInt16_of_fits _ (by omega) (by omega)

end GyroSim

/-! ## gyroLib2.c : radians, congruence of the two angles, slow motion -/

namespace GyroLib

/-- C13: `GyroAngleRadGet` is a direct scale of the heading. For every
estimator state it returns `angle / 180 * PI` and leaves the state as it was,
and (`PI` being positive) whenever the stored heading is in [0, 360) the
result is in [0, 2 * PI). -/
theorem rad_get_scales (PI : ℚ) (hPI : 0 < PI) (s : TaskState) :
    (GyroAngleRadGet PI s).1 = GyroAngleDegGet s / 180 * PI ∧
    (GyroAngleRadGet PI s).2 = s ∧
    (0 ≤ s.theGyro.angle ∧ s.theGyro.angle < 360 →
      0 ≤ (GyroAngleRadGet PI s).1 ∧ (GyroAngleRadGet PI s).1 < 2 * PI) := by
  refine ⟨rfl, rfl, ?_⟩
  rintro ⟨h0, h1⟩
  show 0 ≤ s.theGyro.angle / 180 * PI ∧ s.theGyro.angle / 180 * PI < 2 * PI
  constructor
  · exact mul_nonneg (div_nonneg h0 (by norm_num)) (le_of_lt hPI)
  · have h2 : s.theGyro.angle / 180 < 2 := by
      rw [div_lt_iff₀ (by norm_num)]
      linarith
    exact mul_lt_mul_of_pos_right h2 hPI

/-- C13 (witness): the heading 90 with `PI` = 355 / 113. -/
theorem rad_get_scales_witness :
    (0 : ℚ) < 355 / 113 ∧
    (GyroAngleRadGet (355 / 113) ⟨⟨0, true, 90, 90, 0⟩, 900, 90, 0, 0⟩).1
      = GyroAngleDegGet ⟨⟨0, true, 90, 90, 0⟩, 900, 90, 0, 0⟩ / 180 * (355 / 113) ∧
    (GyroAngleRadGet (355 / 113) ⟨⟨0, true, 90, 90, 0⟩, 900, 90, 0, 0⟩).2
      = ⟨⟨0, true, 90, 90, 0⟩, 900, 90, 0, 0⟩ :=
  ⟨by norm_num,
    (rad_get_scales (355 / 113) (by norm_num) ⟨⟨0, true, 90, 90, 0⟩, 900, 90, 0, 0⟩).1,
    (rad_get_scales (355 / 113) (by norm_num) ⟨⟨0, true, 90, 90, 0⟩, 900, 90, 0, 0⟩).2.1⟩

theorem GyroTaskLoop_snoc (s : TaskState) (inputs : List TickInput) (i : TickInput) :
    GyroTaskLoop s (inputs ++ [i]) = GyroTaskTick (GyroTaskLoop s inputs) i := by
  simp [GyroTaskLoop, List.foldl_append]

theorem GyroTaskLoop_congruent (inputs : List TickInput) :
    ∀ s : TaskState, (∃ k : Int, s.theGyro.abs_angle - s.old_angle = 360 * (k : ℚ)) →
      ∃ k : Int, (GyroTaskLoop s inputs).theGyro.abs_angle - (GyroTaskLoop s inputs).old_angle
        = 360 * (k : ℚ) := by
  induction inputs with
  | nil => intro s h; exact h
  | cons i rest ih =>
    intro s h
    apply ih (GyroTaskTick s i)
    obtain ⟨k, hk⟩ := h
    rw [GyroTaskTick_abs_angle, GyroTaskTick_old_angle]
    rcases fixRollover_cases (tickAngle s i - s.old_angle) with h1 | h1 | h1
    · exact ⟨k - 1, by rw [h1]; push_cast; linarith⟩
    · exact ⟨k, by rw [h1]; linarith⟩
    · exact ⟨k + 1, by rw [h1]; push_cast; linarith⟩

theorem GyroTaskLoop_angle_eq_old (inputs : List TickInput) :
    ∀ s : TaskState, inputs ≠ [] →
      (GyroTaskLoop s inputs).theGyro.angle = (GyroTaskLoop s inputs).old_angle := by
  induction inputs with
  | nil => intro s h; exact absurd rfl h
  | cons i rest ih =>
    intro s _
    by_cases hr : rest = []
    · subst hr
      show (GyroTaskTick s i).theGyro.angle = (GyroTaskTick s i).old_angle
      rw [GyroTaskTick_angle, GyroTaskTick_old_angle]
    · exact ih (GyroTaskTick s i) hr

/-- C15: in `GyroTask`, after every completed tick since the task start or
restart, `abs_angle - angle` is an integer multiple of 360, for every
sequence of raw readings. -/
theorem abs_angle_congruent (g : gyroData) (port : tSensors) (s : TaskState) (t : Int)
    (i : TickInput) (rest : List TickInput) :
    (∃ k : Int, (GyroTask g t (i :: rest)).theGyro.abs_angle
        - (GyroTask g t (i :: rest)).theGyro.angle = 360 * (k : ℚ)) ∧
    (∃ k : Int, (GyroTaskLoop (GyroInit g port t) (i :: rest)).theGyro.abs_angle
        - (GyroTaskLoop (GyroInit g port t) (i :: rest)).theGyro.angle = 360 * (k : ℚ)) ∧
    (∃ k : Int, (GyroTaskLoop (GyroReinit s t) (i :: rest)).theGyro.abs_angle
        - (GyroTaskLoop (GyroReinit s t) (i :: rest)).theGyro.angle = 360 * (k : ℚ)) := by
  have key : ∀ g0 : gyroData, ∃ k : Int,
      (GyroTaskLoop (GyroTaskStart g0 t) (i :: rest)).theGyro.abs_angle
        - (GyroTaskLoop (GyroTaskStart g0 t) (i :: rest)).theGyro.angle = 360 * (k : ℚ) := by
    intro g0
    rw [GyroTaskLoop_angle_eq_old (i :: rest) _ (List.cons_ne_nil _ _)]
    exact GyroTaskLoop_congruent (i :: rest) (GyroTaskStart g0 t)
      ⟨0, by simp [GyroTaskStart]⟩
  exact ⟨key g, key _, key s.theGyro⟩

theorem take_succ_getElem (l : List TickInput) :
    ∀ (n : Nat) (h : n < l.length), l.take (n + 1) = l.take n ++ [l[n]] := by
  induction l with
  | nil => intro n h; exact absurd h (Nat.not_lt_zero _)
  | cons a as ih =>
    intro n h
    cases n with
    | zero => rfl
    | succ m =>
      have hm : m < as.length := Nat.lt_of_succ_lt_succ h
      show a :: as.take (m + 1) = a :: (as.take m ++ [as[m]])
      rw [ih m hm]

theorem normalizedAngle_neg_self (g : Int) : normalizedAngle g (-g) = 0 := by
  simp [normalizedAngle]

theorem GyroTaskTick_nulled (s : TaskState) (i : TickInput)
    (hinv : s.theGyro.drift_error = -s.lastDriftGyro)
    (hslow : i.nSysTime - s.nSysTimeOffset > 250 →
      |i.gyro_value - s.lastDriftGyro| < GYRO_DRIFT_THRESHOLD) :
    (GyroTaskTick s i).theGyro.drift_error = -(GyroTaskTick s i).lastDriftGyro ∧
      (i.nSysTime - s.nSysTimeOffset > 250 →
        (GyroTaskTick s i).theGyro.drift_error = -i.gyro_value ∧
          (GyroTaskTick s i).theGyro.angle = 0) := by
  by_cases h1 : i.nSysTime - s.nSysTimeOffset > 250
  · have h2 := hslow h1
    have hd : (driftFilter s i).theGyro.drift_error = -i.gyro_value := by
      have h3 : (driftFilter s i).theGyro.drift_error
          = s.theGyro.drift_error + (s.lastDriftGyro - i.gyro_value) := by
        simp [driftFilter, h1, h2]
      rw [h3, hinv]
      ring
    have hl : (driftFilter s i).lastDriftGyro = i.gyro_value := by
      simp [driftFilter, h1]
    have hd' : (GyroTaskTick s i).theGyro.drift_error = -i.gyro_value := by
      simpa [GyroTaskTick, storeValid, storeAbsAngle, storeAngle] using hd
    have hl' : (GyroTaskTick s i).lastDriftGyro = i.gyro_value := by
      simpa [GyroTaskTick, storeValid, storeAbsAngle, storeAngle] using hl
    refine ⟨by rw [hd', hl'], fun _ => ⟨hd', ?_⟩⟩
    rw [GyroTaskTick_angle, tickAngle, hd, normalizedAngle_neg_self]
  · refine ⟨?_, fun h => absurd h h1⟩
    simpa [GyroTaskTick, storeValid, storeAbsAngle, storeAngle, driftFilter, h1] using hinv

/-- C16: slow motion is nulled completely by the drift filter. In a run of
`GyroTask` from its startup section, if at every drift check the reading
differs from `lastDriftGyro`, the reading at the previous check (0 for the
first check), by less than 3, then at each check tick `drift_error` becomes
`-gyro_value`, the corrected reading `gyro_value + drift_error` is 0 and the
heading published on that tick is 0. -/
theorem slow_motion_nulled (g : gyroData) (t : Int) (inputs : List TickInput)
    (hslow : ∀ (n : Nat) (hn : n < inputs.length),
      inputs[n].nSysTime - (GyroTask g t (inputs.take n)).nSysTimeOffset > 250 →
        |inputs[n].gyro_value - (GyroTask g t (inputs.take n)).lastDriftGyro|
          < GYRO_DRIFT_THRESHOLD) :
    ∀ (n : Nat) (hn : n < inputs.length),
      inputs[n].nSysTime - (GyroTask g t (inputs.take n)).nSysTimeOffset > 250 →
        (GyroTask g t (inputs.take (n + 1))).theGyro.drift_error = -inputs[n].gyro_value ∧
        inputs[n].gyro_value + (GyroTask g t (inputs.take (n + 1))).theGyro.drift_error = 0 ∧
        (GyroTask g t (inputs.take (n + 1))).theGyro.angle = 0 := by
  have hstep : ∀ (n : Nat) (hn : n < inputs.length),
      GyroTask g t (inputs.take (n + 1)) = GyroTaskTick (GyroTask g t (inputs.take n)) inputs[n] := by
    intro n hn
    unfold GyroTask
    rw [take_succ_getElem inputs n hn, GyroTaskLoop_snoc]
  have hinv : ∀ n : Nat, n ≤ inputs.length →
      (GyroTask g t (inputs.take n)).theGyro.drift_error
        = -(GyroTask g t (inputs.take n)).lastDriftGyro := by
    intro n
    induction n with
    | zero => intro _; simp [GyroTask, GyroTaskLoop, GyroTaskStart]
    | succ m ih =>
      intro hm
      have hlt : m < inputs.length := hm
      rw [hstep m hlt]
      exact (GyroTaskTick_nulled _ _ (ih (Nat.le_of_lt hlt)) (hslow m hlt)).1
  intro n hn hcheck
  have h := (GyroTaskTick_nulled _ _ (hinv n (Nat.le_of_lt hn)) (hslow n hn)).2 hcheck
  rw [hstep n hn]
  exact ⟨h.1, by rw [h.1]; ring, h.2⟩

/-- C16 (witness): two drift checks, with the readings 2 and 4. -/
theorem slow_motion_nulled_witness :
    (∀ (n : Nat) (hn : n < ([⟨2, 300, 300⟩, ⟨4, 600, 600⟩] : List TickInput).length),
      ([⟨2, 300, 300⟩, ⟨4, 600, 600⟩] : List TickInput)[n].nSysTime
          - (GyroTask theGyroZero 0
              (([⟨2, 300, 300⟩, ⟨4, 600, 600⟩] : List TickInput).take n)).nSysTimeOffset > 250 →
        |([⟨2, 300, 300⟩, ⟨4, 600, 600⟩] : List TickInput)[n].gyro_value
            - (GyroTask theGyroZero 0
                (([⟨2, 300, 300⟩, ⟨4, 600, 600⟩] : List TickInput).take n)).lastDriftGyro|
          < GYRO_DRIFT_THRESHOLD) ∧
    (GyroTask theGyroZero 0 [⟨2, 300, 300⟩, ⟨4, 600, 600⟩]).theGyro.drift_error = -4 ∧
    (GyroTask theGyroZero 0 [⟨2, 300, 300⟩, ⟨4, 600, 600⟩]).theGyro.angle = 0 := by
  have hs : ∀ (n : Nat) (hn : n < ([⟨2, 300, 300⟩, ⟨4, 600, 600⟩] : List TickInput).length),
      ([⟨2, 300, 300⟩, ⟨4, 600, 600⟩] : List TickInput)[n].nSysTime
          - (GyroTask theGyroZero 0
              (([⟨2, 300, 300⟩, ⟨4, 600, 600⟩] : List TickInput).take n)).nSysTimeOffset > 250 →
        |([⟨2, 300, 300⟩, ⟨4, 600, 600⟩] : List TickInput)[n].gyro_value
            - (GyroTask theGyroZero 0
                (([⟨2, 300, 300⟩, ⟨4, 600, 600⟩] : List TickInput).take n)).lastDriftGyro|
          < GYRO_DRIFT_THRESHOLD := by
    intro n hn _
    rcases n with _ | _ | n
    · simp [GyroTask, GyroTaskLoop, GyroTaskStart, GYRO_DRIFT_THRESHOLD]
    · norm_num [GyroTask, GyroTaskLoop, GyroTaskTick, GyroTaskStart, storeValid,
        storeAbsAngle, storeAngle, driftFilter, GYRO_DRIFT_THRESHOLD]
    · exact absurd hn (by simp)
  have h := slow_motion_nulled theGyroZero 0 [⟨2, 300, 300⟩, ⟨4, 600, 600⟩] hs 1 (by simp)
    (by
      norm_num [GyroTask, GyroTaskLoop, GyroTaskTick, GyroTaskStart, storeValid,
        storeAbsAngle, storeAngle, driftFilter, GYRO_DRIFT_THRESHOLD])
  exact ⟨hs, h.1, h.2.2⟩

theorem normalizedAngle_range_iff (g d : Int) :
    (0 ≤ normalizedAngle g d ∧ normalizedAngle g d < 360) ↔ (-3600 ≤ g + d ∧ g + d < 3600) := by
  unfold normalizedAngle
  dsimp only
  generalize g + d = v
  by_cases h : ((v : Int) : ℚ) / 10 < 0
  · rw [if_pos h]
    have hv : (v : ℚ) < 0 := by
      by_contra hc
      push_neg at hc
      have : 0 ≤ (v : ℚ) / 10 := div_nonneg hc (by norm_num)
      linarith
    have hv' : v < 0 := by exact_mod_cast hv
    constructor
    · rintro ⟨h1, _⟩
      have h2 : (-3600 : ℚ) ≤ (v : ℚ) := by linarith
      have h3 : (-3600 : Int) ≤ v := by exact_mod_cast h2
      exact ⟨h3, by omega⟩
    · rintro ⟨h1, _⟩
      have h2 : (-3600 : ℚ) ≤ (v : ℚ) := by exact_mod_cast h1
      constructor <;> linarith
  · rw [if_neg h]
    push_neg at h
    have hv : (0 : ℚ) ≤ (v : ℚ) := by linarith
    have hv' : 0 ≤ v := by exact_mod_cast hv
    constructor
    · rintro ⟨_, h1⟩
      have h2 : (v : ℚ) < 3600 := by linarith
      have h3 : v < 3600 := by exact_mod_cast h2
      exact ⟨by omega, h3⟩
    · rintro ⟨_, h1⟩
      have h2 : (v : ℚ) < 3600 := by exact_mod_cast h1
      constructor <;> linarith

/-- C17: on the first tick after startup the reading -3600, with
`drift_error` 0, is a corrected reading of -3600 or less, yet the published
heading is 0, inside [0, 360). -/
theorem heading_at_minus_3600 :
    (GyroTask theGyroZero 0 [⟨-3600, 20, 20⟩]).theGyro.drift_error = 0 ∧
    (-3600 : Int) + (GyroTask theGyroZero 0 [⟨-3600, 20, 20⟩]).theGyro.drift_error ≤ -3600 ∧
    (GyroTask theGyroZero 0 [⟨-3600, 20, 20⟩]).theGyro.angle = 0 ∧
    (0 ≤ (GyroTask theGyroZero 0 [⟨-3600, 20, 20⟩]).theGyro.angle ∧
      (GyroTask theGyroZero 0 [⟨-3600, 20, 20⟩]).theGyro.angle < 360) := by
  have hd : (GyroTask theGyroZero 0 [⟨-3600, 20, 20⟩]).theGyro.drift_error = 0 := by
    norm_num [GyroTask, GyroTaskLoop, GyroTaskTick, GyroTaskStart, storeValid,
      storeAbsAngle, storeAngle, driftFilter, theGyroZero]
  have ha : (GyroTask theGyroZero 0 [⟨-3600, 20, 20⟩]).theGyro.angle = 0 := by
    norm_num [GyroTask, GyroTaskLoop, GyroTaskTick, GyroTaskStart, storeValid,
      storeAbsAngle, storeAngle, tickAngle, driftFilter, normalizedAngle, theGyroZero]
  refine ⟨hd, ?_, ha, ?_⟩
  · rw [hd]; norm_num
  · rw [ha]; norm_num

/-- C17 (amended): conditional heading range in `GyroTask`. On every tick the
published heading lies in [0, 360) exactly when the drift-corrected reading
satisfies `-3600 ≤ gyro_value + drift_error < 3600`: it does whenever
`|gyro_value + drift_error| < 3600`, for instance when `drift_error` is 0 and
`gyro_value` is a clipped output of `gyroSim`, and for a corrected reading of
3600 or more, or below -3600, it lies outside [0, 360). -/
theorem heading_range_iff (s : TaskState) (i : TickInput) :
    ((0 ≤ (GyroTaskTick s i).theGyro.angle ∧ (GyroTaskTick s i).theGyro.angle < 360) ↔
      (-3600 ≤ i.gyro_value + (GyroTaskTick s i).theGyro.drift_error ∧
        i.gyro_value + (GyroTaskTick s i).theGyro.drift_error < 3600)) ∧
    (|i.gyro_value + (GyroTaskTick s i).theGyro.drift_error| < 3600 →
      0 ≤ (GyroTaskTick s i).theGyro.angle ∧ (GyroTaskTick s i).theGyro.angle < 360) ∧
    (∀ acc : Int, (GyroTaskTick s i).theGyro.drift_error = 0 →
      i.gyro_value = GyroSim.clipValue acc →
      0 ≤ (GyroTaskTick s i).theGyro.angle ∧ (GyroTaskTick s i).theGyro.angle < 360) ∧
    (3600 ≤ i.gyro_value + (GyroTaskTick s i).theGyro.drift_error ∨
        i.gyro_value + (GyroTaskTick s i).theGyro.drift_error < -3600 →
      ¬ (0 ≤ (GyroTaskTick s i).theGyro.angle ∧ (GyroTaskTick s i).theGyro.angle < 360)) := by
  have hd : (GyroTaskTick s i).theGyro.drift_error = (driftFilter s i).theGyro.drift_error := by
    simp [GyroTaskTick, storeValid, storeAbsAngle, storeAngle]
  have hiff : (0 ≤ (GyroTaskTick s i).theGyro.angle ∧ (GyroTaskTick s i).theGyro.angle < 360) ↔
      (-3600 ≤ i.gyro_value + (GyroTaskTick s i).theGyro.drift_error ∧
        i.gyro_value + (GyroTaskTick s i).theGyro.drift_error < 3600) := by
    rw [GyroTaskTick_angle, tickAngle, hd]
    exact normalizedAngle_range_iff _ _
  refine ⟨hiff, ?_, ?_, ?_⟩
  · intro h
    have h' := abs_lt.mp h
    exact hiff.mpr ⟨by omega, by omega⟩
  · intro acc h0 hg
    have hb := GyroSim.clipValue_bounds acc
    exact hiff.mpr ⟨by omega, by omega⟩
  · intro h hin
    have h' := hiff.mp hin
    omega

end GyroLib

/-! ## gyroSim.c : the 32-bit variables -/

namespace GyroSim

theorem toInt32_of_fits (x : Int) (h1 : -2147483648 ≤ x) (h2 : x ≤ 2147483647) :
    toInt32 x = x := by
  unfold toInt32
  omega

theorem toInt32_toInt32_add (a b : Int) : toInt32 (toInt32 a + b) = toInt32 (a + b) := by
  unfold toInt32
  omega

theorem biasLoop32_aux (l : List Int) :
    ∀ acc : Int, (∀ x ∈ l, 0 ≤ x ∧ x ≤ 4095) → 0 ≤ acc →
      acc + 4095 * (l.length : Int) ≤ 2147483647 →
      l.foldl (fun GyroBiasAcc sample => toInt32 (GyroBiasAcc + toInt32 sample)) acc
        = l.foldl (fun GyroBiasAcc sample => GyroBiasAcc + sample) acc := by
  induction l with
  | nil => intro acc _ _ _; rfl
  | cons x xs ih =>
    intro acc h h0 hb
    have hx := h x (List.mem_cons_self _ _)
    simp only [List.length_cons, Nat.cast_add, Nat.cast_one] at hb
    have hl : (0 : Int) ≤ (xs.length : Int) := Int.ofNat_nonneg _
    have e1 : toInt32 x = x := toInt32_of_fits _ (by omega) (by omega)
    have e2 : toInt32 (acc + x) = acc + x := toInt32_of_fits _ (by omega) (by omega)
    simp only [List.foldl_cons, e1, e2]
    exact ih (acc + x) (fun y hy => h y (List.mem_cons_of_mem _ hy)) (by omega) (by omega)

theorem biasLoop32_eq (l : List Int) (h : ∀ x ∈ l, 0 ≤ x ∧ x ≤ 4095) (hl : l.length ≤ 1024) :
    biasLoop32 l = biasLoop l := by
  have hl' : (l.length : Int) ≤ 1024 := by exact_mod_cast hl
  exact biasLoop32_aux l 0 h (le_refl _) (by omega)

theorem calibrate32_eq (window : List Int) (hN : window.length = 1024)
    (hw : ∀ x ∈ window, 0 ≤ x ∧ x ≤ 4095) : calibrate32 window = calibrate window := by
  have hb := biasLoop32_eq window hw (le_of_eq hN)
  have hs := sum_bounds 0 4095 window hw
  rw [hN] at hs
  have hq := tdiv_of_nonneg (biasLoop window) 1024
    (by rw [biasLoop_eq_sum]; simpa using hs.1) (by norm_num)
  have hS0 : 0 ≤ biasLoop window := by rw [biasLoop_eq_sum]; simpa using hs.1
  have hS1 : biasLoop window ≤ 1024 * 4095 := by rw [biasLoop_eq_sum]; simpa using hs.2
  unfold calibrate32 calibrate
  rw [hb, hq]
  have e1 : toInt32 (biasLoop window / 1024) = biasLoop window / 1024 :=
    toInt32_of_fits _ (by omega) (by omega)
  rw [e1]
  have e2 : toInt32 (biasLoop window / 1024 * 1024) = biasLoop window / 1024 * 1024 :=
    toInt32_of_fits _ (by omega) (by omega)
  rw [e2]
  have e3 : toInt32 (biasLoop window - biasLoop window / 1024 * 1024)
      = biasLoop window - biasLoop window / 1024 * 1024 :=
    toInt32_of_fits _ (by omega) (by omega)
  rw [e3]

theorem clipValue32_eq (acc : Int) (h1 : -2147483648 ≤ acc) (h2 : acc ≤ 2147483647) :
    clipValue32 acc = clipValue acc := by
  unfold clipValue32 clipValue GyroSensorScale GyroFullScale
  dsimp only
  by_cases ha : 0 ≤ acc
  · rw [tdiv_of_nonneg acc 130 ha (by norm_num)]
    have hv0 : 0 ≤ acc / 130 := by omega
    have e1 : toInt32 (acc / 130) = acc / 130 := toInt32_of_fits _ (by omega) (by omega)
    rw [e1, abs_of_nonneg hv0]
    have e2 : toInt32 (acc / 130) = acc / 130 := e1
    rw [e2, tdiv_of_nonneg (acc / 130) 3600 hv0 (by norm_num)]
    have e3 : toInt32 (acc / 130 / 3600) = acc / 130 / 3600 :=
      toInt32_of_fits _ (by omega) (by omega)
    have e4 : toInt32 (acc / 130 / 3600 * 3600) = acc / 130 / 3600 * 3600 :=
      toInt32_of_fits _ (by omega) (by omega)
    have e5 : toInt32 (acc / 130 - acc / 130 / 3600 * 3600)
        = acc / 130 - acc / 130 / 3600 * 3600 :=
      toInt32_of_fits _ (by omega) (by omega)
    rw [e3, e4, e5]
  · rw [tdiv_of_neg acc 130 (by omega) (by norm_num)]
    have hv0 : -(-acc / 130) ≤ 0 := by omega
    have e1 : toInt32 (-(-acc / 130)) = -(-acc / 130) :=
      toInt32_of_fits _ (by omega) (by omega)
    rw [e1, abs_of_nonpos hv0]
    have e2 : toInt32 (- -(-acc / 130)) = - -(-acc / 130) :=
      toInt32_of_fits _ (by omega) (by omega)
    rw [e2, tdiv_of_neg (-(-acc / 130)) 3600 hv0 (by norm_num)]
    have e3 : toInt32 (-(- -(-acc / 130) / 3600)) = -(- -(-acc / 130) / 3600) :=
      toInt32_of_fits _ (by omega) (by omega)
    have e4 : toInt32 (-(- -(-acc / 130) / 3600) * 3600) = -(- -(-acc / 130) / 3600) * 3600 :=
      toInt32_of_fits _ (by omega) (by omega)
    have e5 : toInt32 (-(-acc / 130) - -(- -(-acc / 130) / 3600) * 3600)
        = -(-acc / 130) - -(- -(-acc / 130) / 3600) * 3600 :=
      toInt32_of_fits _ (by omega) (by omega)
    rw [e3, e4, e5]

theorem gyroSimTick32_eq (s : SimState) (raw : Int)
    (hb : 0 ≤ s.GyroBias ∧ s.GyroBias ≤ 4095)
    (hsm : 0 ≤ s.GyroSmallBias ∧ s.GyroSmallBias ≤ 1023)
    (hraw : 0 ≤ raw ∧ raw ≤ 4095)
    (hc : 0 ≤ s.GyroJitterCycles ∧ s.GyroJitterCycles < 524288)
    (hacc : -(4095 * s.GyroJitterCycles + 1023 * (s.GyroJitterCycles / 1024))
        ≤ s.GyroRawFiltered
      ∧ s.GyroRawFiltered
        ≤ 4095 * s.GyroJitterCycles + 1023 * (s.GyroJitterCycles / 1024)) :
    gyroSimTick32 s raw = gyroSimTick s raw ∧
      (0 ≤ (gyroSimTick s raw).GyroJitterCycles ∧
        (gyroSimTick s raw).GyroJitterCycles ≤ s.GyroJitterCycles + 1) ∧
      (-(4095 * (gyroSimTick s raw).GyroJitterCycles
            + 1023 * ((gyroSimTick s raw).GyroJitterCycles / 1024))
          ≤ (gyroSimTick s raw).GyroRawFiltered
        ∧ (gyroSimTick s raw).GyroRawFiltered
          ≤ 4095 * (gyroSimTick s raw).GyroJitterCycles
            + 1023 * ((gyroSimTick s raw).GyroJitterCycles / 1024)) := by
  have hd : gyroDelta s raw = raw - s.GyroBias :=
    toInt16_of_fits _ (by omega) (by omega)
  have hd32 : gyroDelta32 s raw = gyroDelta s raw := by
    unfold gyroDelta32 gyroDelta
    rw [toInt32_of_fits raw (by omega) (by omega),
      toInt32_of_fits (raw - s.GyroBias) (by omega) (by omega)]
  have hstep := cycles_div_step s.GyroJitterCycles hc.1
  have hc32 : toInt32 (s.GyroJitterCycles + 1) = s.GyroJitterCycles + 1 :=
    toInt32_of_fits _ (by omega) (by omega)
  have hgate : jitterGate32 s (gyroDelta s raw) = jitterGate s (gyroDelta s raw)
      ∧ (0 ≤ (jitterGate s (gyroDelta s raw)).GyroJitterCycles ∧
        (jitterGate s (gyroDelta s raw)).GyroJitterCycles ≤ s.GyroJitterCycles + 1)
      ∧ (-(4095 * (jitterGate s (gyroDelta s raw)).GyroJitterCycles
            + 1023 * ((jitterGate s (gyroDelta s raw)).GyroJitterCycles / 1024))
          ≤ (jitterGate s (gyroDelta s raw)).GyroRawFiltered
        ∧ (jitterGate s (gyroDelta s raw)).GyroRawFiltered
          ≤ 4095 * (jitterGate s (gyroDelta s raw)).GyroJitterCycles
            + 1023 * ((jitterGate s (gyroDelta s raw)).GyroJitterCycles / 1024)) := by
    unfold jitterGate32 jitterGate
    rw [hc32, hd]
    by_cases hg : raw - s.GyroBias < -GyroJitterRange ∨ raw - s.GyroBias > GyroJitterRange
    · rw [if_pos hg, if_pos hg]
      have e1 : toInt32 (s.GyroRawFiltered + (raw - s.GyroBias))
          = s.GyroRawFiltered + (raw - s.GyroBias) :=
        toInt32_of_fits _ (by omega) (by omega)
      rw [e1]
      by_cases hm : Int.tmod (s.GyroJitterCycles + 1) 1024 = 0
      · have hq := hstep.1 hm
        have e2 : toInt32 (s.GyroRawFiltered + (raw - s.GyroBias) - s.GyroSmallBias)
            = s.GyroRawFiltered + (raw - s.GyroBias) - s.GyroSmallBias :=
          toInt32_of_fits _ (by omega) (by omega)
        rw [e2, if_pos hm]
        dsimp only
        refine ⟨rfl, ⟨by omega, by omega⟩, ?_, ?_⟩ <;> omega
      · have hq := hstep.2 hm
        rw [if_neg hm, if_neg hm]
        dsimp only
        refine ⟨rfl, ⟨by omega, by omega⟩, ?_, ?_⟩ <;> omega
    · rw [if_neg hg, if_neg hg]
      exact ⟨rfl, ⟨by omega, by omega⟩, hacc.1, hacc.2⟩
  obtain ⟨hj, hcy, hbd⟩ := hgate
  have hclip : clipValue32 (jitterGate s (gyroDelta s raw)).GyroRawFiltered
      = clipValue (jitterGate s (gyroDelta s raw)).GyroRawFiltered :=
    clipValue32_eq _ (by omega) (by omega)
  refine ⟨?_, hcy, hbd⟩
  unfold gyroSimTick32 gyroSimTick
  rw [hd32, hj, hclip]

theorem gyroSimLoop32_eq (l : List Int) :
    ∀ s : SimState, (0 ≤ s.GyroBias ∧ s.GyroBias ≤ 4095) →
      (0 ≤ s.GyroSmallBias ∧ s.GyroSmallBias ≤ 1023) →
      (∀ x ∈ l, 0 ≤ x ∧ x ≤ 4095) →
      0 ≤ s.GyroJitterCycles → s.GyroJitterCycles + (l.length : Int) ≤ 524288 →
      (-(4095 * s.GyroJitterCycles + 1023 * (s.GyroJitterCycles / 1024)) ≤ s.GyroRawFiltered
        ∧ s.GyroRawFiltered
          ≤ 4095 * s.GyroJitterCycles + 1023 * (s.GyroJitterCycles / 1024)) →
      gyroSimLoop32 s l = gyroSimLoop s l ∧
        -2147483648 ≤ (gyroSimLoop s l).GyroRawFiltered ∧
        (gyroSimLoop s l).GyroRawFiltered ≤ 2147483647 ∧
        0 ≤ (gyroSimLoop s l).GyroJitterCycles ∧
        (gyroSimLoop s l).GyroJitterCycles ≤ 524288 := by
  induction l with
  | nil =>
    intro s _ _ _ hc hl hacc
    simp only [List.length_nil, Nat.cast_zero, add_zero] at hl
    exact ⟨rfl, by show _ ≤ s.GyroRawFiltered; omega,
      by show s.GyroRawFiltered ≤ _; omega, hc, hl⟩
  | cons x xs ih =>
    intro s hb hsm hin hc hl hacc
    simp only [List.length_cons, Nat.cast_add, Nat.cast_one] at hl
    have hlen : (0 : Int) ≤ (xs.length : Int) := Int.ofNat_nonneg _
    have ht := gyroSimTick32_eq s x hb hsm (hin x (List.mem_cons_self _ _))
      ⟨hc, by omega⟩ hacc
    have hbias := gyroSimTick_bias s x
    have h := ih (gyroSimTick s x) (by rw [hbias.1]; exact hb) (by rw [hbias.2]; exact hsm)
      (fun y hy => hin y (List.mem_cons_of_mem _ hy)) ht.2.1.1 (by omega) ht.2.2
    rw [gyroSimLoop_cons]
    refine ⟨?_, h.2⟩
    show gyroSimLoop32 (gyroSimTick32 s x) xs = _
    rw [ht.1, h.1]

theorem toInt32_add_mul (a : Int) (k : Nat) :
    toInt32 (toInt32 (a + 4095 * (k : Int)) + 4095) = toInt32 (a + 4095 * ((k : Int) + 1)) := by
  rw [toInt32_toInt32_add]
  congr 1
  ring

theorem gyroSimTick32_zero_bias (A cyc val : Int) (hc : 0 ≤ cyc ∧ cyc < 2147483647) :
    gyroSimTick32 ⟨0, 0, toInt32 A, cyc, val⟩ 4095
      = ⟨0, 0, toInt32 (A + 4095), cyc + 1, clipValue32 (toInt32 (A + 4095))⟩ := by
  have hd : gyroDelta32 ⟨0, 0, toInt32 A, cyc, val⟩ 4095 = 4095 := by
    show toInt16 (toInt32 (toInt32 4095 - 0)) = 4095
    decide
  have hg : (4095 : Int) < -GyroJitterRange ∨ (4095 : Int) > GyroJitterRange := by decide
  have e1 : toInt32 (toInt32 A + 4095) = toInt32 (A + 4095) := toInt32_toInt32_add _ _
  have e2 : toInt32 (toInt32 (A + 4095) - 0) = toInt32 (A + 4095) := by
    unfold toInt32; omega
  have e3 : toInt32 (cyc + 1) = cyc + 1 := toInt32_of_fits _ (by omega) (by omega)
  unfold gyroSimTick32
  rw [hd]
  unfold jitterGate32
  rw [if_pos hg]
  dsimp only
  rw [e1, e2, e3, ite_self]

theorem gyroSimLoop32_replicate_4095 (k : Nat) :
    ∀ A cyc val : Int, 0 ≤ cyc → cyc + ((k : Int) + 1) ≤ 2147483647 →
      gyroSimLoop32 ⟨0, 0, toInt32 A, cyc, val⟩ (List.replicate (k + 1) 4095)
        = ⟨0, 0, toInt32 (A + 4095 * ((k : Int) + 1)), cyc + ((k : Int) + 1),
            clipValue32 (toInt32 (A + 4095 * ((k : Int) + 1)))⟩ := by
  induction k with
  | zero =>
    intro A cyc val h0 h1
    show gyroSimLoop32 (gyroSimTick32 ⟨0, 0, toInt32 A, cyc, val⟩ 4095) [] = _
    rw [gyroSimTick32_zero_bias _ _ _ ⟨h0, by omega⟩]
    simp [gyroSimLoop32]
  | succ k ih =>
    intro A cyc val h0 h1
    have hk : (0 : Int) ≤ (k : Int) := Int.ofNat_nonneg _
    push_cast at h1
    show gyroSimLoop32 (gyroSimTick32 ⟨0, 0, toInt32 A, cyc, val⟩ 4095)
      (List.replicate (k + 1) 4095) = _
    rw [gyroSimTick32_zero_bias _ _ _ ⟨h0, by omega⟩, ih _ _ _ (by omega) (by omega)]
    have e1 : A + 4095 + 4095 * ((k : Int) + 1) = A + 4095 * (((k + 1 : Nat) : Int) + 1) := by
      push_cast; ring
    have e2 : cyc + 1 + ((k : Int) + 1) = cyc + (((k + 1 : Nat) : Int) + 1) := by
      push_cast; ring
    rw [e1, e2]

theorem calibrate32_zeros : calibrate32 (List.replicate 1024 (0 : Int)) = ⟨0, 0, 0, 0, 0⟩ := by
  rw [calibrate32_eq _ (List.length_replicate _ _), calibrate_zeros]
  intro x hx
  rw [(List.mem_replicate.mp hx).2]
  decide

theorem gyroSim32_append (window running : List Int) (h : window.length = 1024) :
    gyroSim32 (window ++ running) = some (gyroSimLoop32 (calibrate32 window) running) := by
  have hlen : ¬ (window ++ running).length < 1024 := by
    rw [List.length_append, h]; omega
  have ht : (window ++ running).take 1024 = window := by
    rw [← h]; exact List.take_left' rfl
  have hd : (window ++ running).drop 1024 = running := by
    rw [← h]; exact List.drop_left' rfl
  unfold gyroSim32
  rw [if_neg hlen, ht, hd]

/-- C19: on the in-range stream of 1024 calibration samples 0 and 524417
running samples 4095 the integrated sum is 2147487615, above the greatest
`int32_t` value 2147483647: the 32-bit `GyroRawFiltered` wraps to -2147479681
and the published `GyroValue` is -2274 instead of 2335. -/
theorem accumulator_wraps :
    (∀ x ∈ List.replicate 1024 (0 : Int) ++ List.replicate 524417 4095, 0 ≤ x ∧ x ≤ 4095) ∧
    gyroSim (List.replicate 1024 (0 : Int) ++ List.replicate 524417 4095)
      = some ⟨0, 0, 2147487615, 524417, 2335⟩ ∧
    (2147487615 : Int) > 2147483647 ∧
    gyroSim32 (List.replicate 1024 (0 : Int) ++ List.replicate 524417 4095)
      = some ⟨0, 0, -2147479681, 524417, -2274⟩ := by
  refine ⟨?_, ?_, by decide, ?_⟩
  · intro x hx
    rw [List.mem_append, List.mem_replicate, List.mem_replicate] at hx
    rcases hx with ⟨_, rfl⟩ | ⟨_, rfl⟩ <;> decide
  · have h := gyroSimLoop_replicate_4095 524416 0 0 0
    have e1 : (0 : Int) + 4095 * (((524416 : Nat) : Int) + 1) = 2147487615 := by norm_num
    have e2 : (0 : Int) + (((524416 : Nat) : Int) + 1) = 524417 := by norm_num
    have e3 : clipValue 2147487615 = 2335 := by decide
    rw [e1, e2, e3] at h
    rw [gyroSim_append _ _ (List.length_replicate _ _), calibrate_zeros]
    exact congrArg some h
  · have h := gyroSimLoop32_replicate_4095 524416 0 0 0 (le_refl _) (by norm_num)
    have e0 : toInt32 0 = 0 := by decide
    have e1 : toInt32 (0 + 4095 * (((524416 : Nat) : Int) + 1)) = -2147479681 := by
      have : (0 : Int) + 4095 * (((524416 : Nat) : Int) + 1) = 2147487615 := by norm_num
      rw [this]
      decide
    have e2 : (0 : Int) + (((524416 : Nat) : Int) + 1) = 524417 := by norm_num
    have e3 : clipValue32 (-2147479681) = -2274 := by decide
    rw [e0, e1, e2, e3] at h
    rw [gyroSim32_append _ _ (List.length_replicate _ _), calibrate32_zeros]
    exact congrArg some h

/-- C19 (amended): no integer wraparound in `gyroSim` for in-range sensor
data in the calibration, in `GyroDelta`, and in the first 524288 ticks of the
running loop. If every calibration and running sample is in [0, 4095], then
`GyroBiasAcc` stays in [0, 1024 * 4095], below 2^31, the 32-bit calibration
gives the values of the unbounded one, `GyroBias` is in [0, 4095], at every
tick `raw - GyroBias` is in [-4095, 4095] and the 16-bit `GyroDelta` is
exactly `raw - GyroBias`; and while at most 524288 running samples have been
read, 32-bit arithmetic gives the state unbounded arithmetic gives, with
`GyroRawFiltered` inside the `int32_t` range. -/
theorem no_wraparound (window running : List Int) (hN : window.length = 1024)
    (hw : ∀ x ∈ window, 0 ≤ x ∧ x ≤ 4095) (hr : ∀ x ∈ running, 0 ≤ x ∧ x ≤ 4095) :
    (∀ n : Nat, 0 ≤ biasLoop (window.take n) ∧ biasLoop (window.take n) ≤ 1024 * 4095 ∧
      biasLoop32 (window.take n) = biasLoop (window.take n)) ∧
    (0 ≤ biasLoop window ∧ biasLoop window ≤ 1024 * 4095) ∧
    (1024 * 4095 : Int) < 2 ^ 31 ∧
    calibrate32 window = calibrate window ∧
    (0 ≤ (calibrate window).GyroBias ∧ (calibrate window).GyroBias ≤ 4095) ∧
    (∀ (before after : List Int) (raw : Int), running = before ++ raw :: after →
      (gyroSimLoop (calibrate window) before).GyroBias = (calibrate window).GyroBias ∧
      -4095 ≤ raw - (gyroSimLoop (calibrate window) before).GyroBias ∧
      raw - (gyroSimLoop (calibrate window) before).GyroBias ≤ 4095 ∧
      gyroDelta (gyroSimLoop (calibrate window) before) raw
        = raw - (gyroSimLoop (calibrate window) before).GyroBias ∧
      gyroDelta32 (gyroSimLoop (calibrate window) before) raw
        = raw - (gyroSimLoop (calibrate window) before).GyroBias) ∧
    (running.length ≤ 524288 →
      gyroSim32 (window ++ running) = gyroSim (window ++ running) ∧
      ∃ s : SimState, gyroSim (window ++ running) = some s ∧
        -2147483648 ≤ s.GyroRawFiltered ∧ s.GyroRawFiltered ≤ 2147483647 ∧
        0 ≤ s.GyroJitterCycles ∧ s.GyroJitterCycles ≤ 524288) := by
  have hold := in_range_bounds window running hN hw hr
  have hcal := calibrate32_eq window hN hw
  have hsmall : 0 ≤ (calibrate window).GyroSmallBias ∧ (calibrate window).GyroSmallBias ≤ 1023 := by
    have h0 := hold.2.1.1
    have hq := tdiv_of_nonneg (biasLoop window) 1024 h0 (by norm_num)
    simp only [calibrate]
    rw [hq]
    omega
  refine ⟨?_, hold.2.1, hold.2.2.1, hcal, hold.2.2.2.1, ?_, ?_⟩
  · intro n
    refine ⟨(hold.1 n).1, (hold.1 n).2, ?_⟩
    apply biasLoop32_eq _ (fun x hx => hw x (List.mem_of_mem_take hx))
    rw [List.length_take, hN]
    exact Nat.min_le_right _ _
  · intro before after raw hsplit
    have h := hold.2.2.2.2 before after raw hsplit
    have hraw := hr raw (by rw [hsplit]; exact List.mem_append_right _ (List.mem_cons_self _ _))
    refine ⟨h.1, h.2.1, h.2.2.1, h.2.2.2, ?_⟩
    rw [← h.2.2.2]
    unfold gyroDelta32 gyroDelta
    have hb := hold.2.2.2.1
    rw [h.1]
    rw [toInt32_of_fits raw (by omega) (by omega),
      toInt32_of_fits (raw - (calibrate window).GyroBias) (by omega) (by omega)]
  · intro hlen
    have hlen' : ((running.length : Nat) : Int) ≤ 524288 := by exact_mod_cast hlen
    have hc0 : (calibrate window).GyroJitterCycles = 0 := rfl
    have ha0 : (calibrate window).GyroRawFiltered = 0 := rfl
    have h := gyroSimLoop32_eq running (calibrate window) hold.2.2.2.1 hsmall hr
      (by rw [hc0]) (by rw [hc0]; omega) (by rw [hc0, ha0]; omega)
    refine ⟨?_, gyroSimLoop (calibrate window) running, gyroSim_append _ _ hN, h.2⟩
    rw [gyroSim32_append _ _ hN, gyroSim_append _ _ hN, hcal, h.1]

/-- C19 (witness): a calibration on 1024 samples 2000 and the running samples
0, 4095. -/
theorem no_wraparound_witness :
    (List.replicate 1024 (2000 : Int)).length = 1024 ∧
    (∀ x ∈ List.replicate 1024 (2000 : Int), 0 ≤ x ∧ x ≤ 4095) ∧
    (∀ x ∈ ([0, 4095] : List Int), 0 ≤ x ∧ x ≤ 4095) ∧
    (0 ≤ biasLoop (List.replicate 1024 (2000 : Int)) ∧
      biasLoop (List.replicate 1024 (2000 : Int)) ≤ 1024 * 4095) ∧
    calibrate32 (List.replicate 1024 (2000 : Int)) = calibrate (List.replicate 1024 (2000 : Int)) ∧
    gyroSim32 (List.replicate 1024 (2000 : Int) ++ [0, 4095])
      = gyroSim (List.replicate 1024 (2000 : Int) ++ [0, 4095]) := by
  have h1 : ∀ x ∈ List.replicate 1024 (2000 : Int), 0 ≤ x ∧ x ≤ 4095 := by
    intro x hx
    rw [List.mem_replicate] at hx
    rw [hx.2]
    decide
  have h2 : ∀ x ∈ ([0, 4095] : List Int), 0 ≤ x ∧ x ≤ 4095 := by decide
  have h := no_wraparound (List.replicate 1024 (2000 : Int)) [0, 4095]
    (List.length_replicate _ _) h1 h2
  exact ⟨List.length_replicate _ _, h1, h2, h.2.1, h.2.2.2.1, (h.2.2.2.2.2.2 (by decide)).1⟩

end GyroSim

/-! ## gyroLib2.c : the rollover fix in `float` arithmetic -/

namespace GyroLib

theorem roundHalfEven_le (y : ℚ) (m : Int) (h : y ≤ m) : roundHalfEven y ≤ m := by
  have hf : ⌊y⌋ ≤ m := by
    have h1 : (⌊y⌋ : ℚ) ≤ (m : ℚ) := le_trans (Int.floor_le y) h
    exact_mod_cast h1
  have hup : 0 < y - ⌊y⌋ → ⌊y⌋ + 1 ≤ m := by
    intro hpos
    have h1 : (⌊y⌋ : ℚ) < (m : ℚ) := by linarith
    have h2 : ⌊y⌋ < m := by exact_mod_cast h1
    omega
  unfold roundHalfEven
  split_ifs with h1 h2 h3
  · exact hf
  · exact hup (by linarith)
  · exact hf
  · exact hup (by linarith)

theorem le_roundHalfEven (y : ℚ) (m : Int) (h : (m : ℚ) ≤ y) : m ≤ roundHalfEven y := by
  have hf : m ≤ ⌊y⌋ := Int.le_floor.mpr h
  unfold roundHalfEven
  split_ifs <;> omega

theorem roundHalfEven_intCast (m : Int) : roundHalfEven (m : ℚ) = m :=
  le_antisymm (roundHalfEven_le _ _ (le_refl _)) (le_roundHalfEven _ _ (le_refl _))

theorem abs_roundHalfEven_sub_le (y : ℚ) : |(roundHalfEven y : ℚ) - y| ≤ 1 / 2 := by
  have h1 := Int.floor_le y
  have h2 := Int.lt_floor_add_one y
  rw [abs_le]
  unfold roundHalfEven
  split_ifs with h3 h4 h5
  · constructor <;> linarith
  · push_cast; constructor <;> linarith
  · constructor <;> linarith
  · push_cast; constructor <;> linarith

theorem roundHalfEven_eq_of_near (y : ℚ) (m : Int) (h : |y - m| < 1 / 2) :
    roundHalfEven y = m := by
  have h1 := abs_le.mp (abs_roundHalfEven_sub_le y)
  have h2 := abs_lt.mp h
  have h3 : ((roundHalfEven y : Int) : ℚ) < (m : ℚ) + 1 := by linarith [h1.2, h2.2]
  have h4 : (m : ℚ) - 1 < ((roundHalfEven y : Int) : ℚ) := by linarith [h1.1, h2.1]
  have h5 : roundHalfEven y < m + 1 := by exact_mod_cast h3
  have h6 : m - 1 < roundHalfEven y := by exact_mod_cast h4
  omega

theorem log_two_eq (r : ℚ) (n : Nat) (h1 : (2 : ℚ) ^ 23 ≤ r * 2 ^ n)
    (h2 : r * 2 ^ n < (2 : ℚ) ^ 24) : Int.log 2 r - 23 = -(n : Int) := by
  have hpow : (0 : ℚ) < 2 ^ n := by positivity
  have hr : 0 < r := by
    by_contra hc
    push_neg at hc
    have : r * 2 ^ n ≤ 0 := mul_nonpos_of_nonpos_of_nonneg hc (le_of_lt hpow)
    have : (0 : ℚ) < 2 ^ 23 := by norm_num
    linarith
  have hlo : ((2 : Nat) : ℚ) ^ ((23 : Int) - (n : Int)) ≤ r := by
    rw [Nat.cast_ofNat, zpow_sub₀ (by norm_num), zpow_natCast, div_le_iff₀ hpow]
    norm_num
    linarith
  have hhi : r < ((2 : Nat) : ℚ) ^ ((23 : Int) - (n : Int) + 1) := by
    have e : (23 : Int) - (n : Int) + 1 = 24 - (n : Int) := by ring
    rw [Nat.cast_ofNat, e, zpow_sub₀ (by norm_num), zpow_natCast, lt_div_iff₀ hpow]
    norm_num
    linarith
  have h3 := (Int.zpow_le_iff_le_log (by norm_num : 1 < 2) hr).mp hlo
  have h4 := (Int.lt_zpow_iff_log_lt (by norm_num : 1 < 2) hr).mp hhi
  omega

theorem roundF32_scaled (x : ℚ) (n : Nat) (h1 : (2 : ℚ) ^ 23 ≤ |x| * 2 ^ n)
    (h2 : |x| * 2 ^ n < (2 : ℚ) ^ 24) :
    roundF32 x = (roundHalfEven (x * 2 ^ n) : ℚ) / 2 ^ n := by
  have hx : x ≠ 0 := by
    intro h0
    rw [h0] at h1
    norm_num at h1
  have hlog := log_two_eq |x| n h1 h2
  unfold roundF32
  rw [if_neg hx, hlog, zpow_neg, zpow_natCast]
  rw [div_eq_mul_inv, inv_inv, div_eq_mul_inv]

theorem exists_scale (x : ℚ) (hx : x ≠ 0) (hb : |x| < 2 ^ 24) :
    ∃ n : Nat, (2 : ℚ) ^ 23 ≤ |x| * 2 ^ n ∧ |x| * 2 ^ n < (2 : ℚ) ^ 24 := by
  have hpos : 0 < |x| := abs_pos.mpr hx
  have hlo := Int.zpow_log_le_self (by norm_num : 1 < 2) hpos
  have hhi := Int.lt_zpow_succ_log_self (by norm_num : 1 < 2) |x|
  have hlt : Int.log 2 |x| < 24 := by
    apply (Int.lt_zpow_iff_log_lt (by norm_num : 1 < 2) hpos).mp
    norm_num
    exact hb
  obtain ⟨n, hn⟩ : ∃ n : Nat, (n : Int) = 23 - Int.log 2 |x| :=
    ⟨(23 - Int.log 2 |x|).toNat, Int.toNat_of_nonneg (by omega)⟩
  have he : Int.log 2 |x| = 23 - (n : Int) := by omega
  have he1 : Int.log 2 |x| + 1 = 24 - (n : Int) := by omega
  have hpow : (0 : ℚ) < 2 ^ n := by positivity
  refine ⟨n, ?_, ?_⟩
  · rw [Nat.cast_ofNat, he, zpow_sub₀ (by norm_num), zpow_natCast, div_le_iff₀ hpow] at hlo
    norm_num at hlo
    linarith
  · rw [Nat.cast_ofNat, he1, zpow_sub₀ (by norm_num), zpow_natCast, lt_div_iff₀ hpow] at hhi
    norm_num at hhi
    linarith

theorem roundF32_le_intCast (x : ℚ) (a : Int) (hb : |x| < 2 ^ 24) (h : x ≤ a) :
    roundF32 x ≤ a := by
  by_cases hx : x = 0
  · rw [hx] at h ⊢
    simpa [roundF32] using h
  · obtain ⟨n, h1, h2⟩ := exists_scale x hx hb
    rw [roundF32_scaled x n h1 h2]
    have hpow : (0 : ℚ) < 2 ^ n := by positivity
    rw [div_le_iff₀ hpow]
    have hm : x * 2 ^ n ≤ ((a * 2 ^ n : Int) : ℚ) := by
      push_cast
      exact mul_le_mul_of_nonneg_right h (le_of_lt hpow)
    have := roundHalfEven_le _ _ hm
    have h3 : ((roundHalfEven (x * 2 ^ n) : Int) : ℚ) ≤ ((a * 2 ^ n : Int) : ℚ) := by
      exact_mod_cast this
    push_cast at h3
    exact h3

theorem intCast_le_roundF32 (x : ℚ) (a : Int) (hb : |x| < 2 ^ 24) (h : (a : ℚ) ≤ x) :
    (a : ℚ) ≤ roundF32 x := by
  by_cases hx : x = 0
  · rw [hx] at h ⊢
    simpa [roundF32] using h
  · obtain ⟨n, h1, h2⟩ := exists_scale x hx hb
    rw [roundF32_scaled x n h1 h2]
    have hpow : (0 : ℚ) < 2 ^ n := by positivity
    rw [le_div_iff₀ hpow]
    have hm : ((a * 2 ^ n : Int) : ℚ) ≤ x * 2 ^ n := by
      push_cast
      exact mul_le_mul_of_nonneg_right h (le_of_lt hpow)
    have := le_roundHalfEven _ _ hm
    have h3 : ((a * 2 ^ n : Int) : ℚ) ≤ ((roundHalfEven (x * 2 ^ n) : Int) : ℚ) := by
      exact_mod_cast this
    push_cast at h3
    exact h3

theorem roundF32_intCast (a : Int) (hb : |(a : ℚ)| < 2 ^ 24) : roundF32 (a : ℚ) = a :=
  le_antisymm (roundF32_le_intCast _ _ hb (le_refl _)) (intCast_le_roundF32 _ _ hb (le_refl _))

theorem abs_roundF32_sub_le (x : ℚ) (hb : |x| < 2 ^ 24) :
    |roundF32 x - x| ≤ |x| / 2 ^ 24 := by
  by_cases hx : x = 0
  · rw [hx]
    simp [roundF32]
  · obtain ⟨n, h1, h2⟩ := exists_scale x hx hb
    rw [roundF32_scaled x n h1 h2]
    have hpow : (0 : ℚ) < 2 ^ n := by positivity
    have he := abs_roundHalfEven_sub_le (x * 2 ^ n)
    have hrw : (roundHalfEven (x * 2 ^ n) : ℚ) / 2 ^ n - x
        = ((roundHalfEven (x * 2 ^ n) : ℚ) - x * 2 ^ n) / 2 ^ n := by
      field_simp
      ring
    rw [hrw, abs_div, abs_of_pos hpow, div_le_div_iff₀ hpow (by norm_num)]
    calc |(roundHalfEven (x * 2 ^ n) : ℚ) - x * 2 ^ n| * 2 ^ 24
        ≤ 1 / 2 * 2 ^ 24 := mul_le_mul_of_nonneg_right he (by norm_num)
      _ = 2 ^ 23 := by norm_num
      _ ≤ |x| * 2 ^ n := h1

theorem roundF32_eq_of_scaled (x : ℚ) (n : Nat) (m : Int) (h1 : (2 : ℚ) ^ 23 ≤ |x| * 2 ^ n)
    (h2 : |x| * 2 ^ n < (2 : ℚ) ^ 24) (hm : |x * 2 ^ n - m| < 1 / 2) :
    roundF32 x = (m : ℚ) / 2 ^ n := by
  rw [roundF32_scaled x n h1 h2, roundHalfEven_eq_of_near _ _ hm]

theorem fixRolloverF32_roundF32 (x : ℚ) (hx : -360 < x ∧ x < 360) :
    (-180 ≤ fixRolloverF32 (roundF32 x) ∧ fixRolloverF32 (roundF32 x) ≤ 180) ∧
      ∃ k : Int, (k = -1 ∨ k = 0 ∨ k = 1) ∧
        |fixRolloverF32 (roundF32 x) - (x + 360 * (k : ℚ))| ≤ 1 / 16384 := by
  have hb : |x| < 2 ^ 24 := by
    rw [abs_lt]; constructor <;> norm_num <;> linarith
  have hxa : |x| ≤ 360 := by
    rw [abs_le]; constructor <;> linarith
  have hu : roundF32 x ≤ 360 := by
    have := roundF32_le_intCast x 360 hb (by push_cast; linarith)
    push_cast at this
    exact this
  have hl : -360 ≤ roundF32 x := by
    have := intCast_le_roundF32 x (-360) hb (by push_cast; linarith)
    push_cast at this
    exact this
  have he := abs_le.mp (le_trans (abs_roundF32_sub_le x hb)
    (div_le_div_of_nonneg_right hxa (by norm_num)))
  unfold fixRolloverF32
  dsimp only
  by_cases h1 : roundF32 x > 180
  · rw [if_pos h1]
    have hb1 : |roundF32 x - 360| < 2 ^ 24 := by
      rw [abs_lt]; constructor <;> norm_num <;> linarith
    have ha1 : |roundF32 x - 360| ≤ 180 := by
      rw [abs_le]; constructor <;> linarith
    have hu1 : roundF32 (roundF32 x - 360) ≤ 0 := by
      have := roundF32_le_intCast (roundF32 x - 360) 0 hb1 (by push_cast; linarith)
      push_cast at this
      exact this
    have hl1 : -180 ≤ roundF32 (roundF32 x - 360) := by
      have := intCast_le_roundF32 (roundF32 x - 360) (-180) hb1 (by push_cast; linarith)
      push_cast at this
      exact this
    have he1 := abs_le.mp (le_trans (abs_roundF32_sub_le _ hb1)
      (div_le_div_of_nonneg_right ha1 (by norm_num)))
    rw [if_neg (not_lt.mpr hl1)]
    refine ⟨⟨hl1, by linarith⟩, -1, Or.inl rfl, ?_⟩
    rw [abs_le]
    push_cast
    constructor <;> norm_num at he he1 ⊢ <;> linarith
  · rw [if_neg h1]
    push_neg at h1
    by_cases h2 : roundF32 x < -180
    · rw [if_pos h2]
      have hb2 : |roundF32 x + 360| < 2 ^ 24 := by
        rw [abs_lt]; constructor <;> norm_num <;> linarith
      have ha2 : |roundF32 x + 360| ≤ 180 := by
        rw [abs_le]; constructor <;> linarith
      have hu2 : roundF32 (roundF32 x + 360) ≤ 180 := by
        have := roundF32_le_intCast (roundF32 x + 360) 180 hb2 (by push_cast; linarith)
        push_cast at this
        exact this
      have hl2 : 0 ≤ roundF32 (roundF32 x + 360) := by
        have := intCast_le_roundF32 (roundF32 x + 360) 0 hb2 (by push_cast; linarith)
        push_cast at this
        exact this
      have he2 := abs_le.mp (le_trans (abs_roundF32_sub_le _ hb2)
        (div_le_div_of_nonneg_right ha2 (by norm_num)))
      refine ⟨⟨by linarith, hu2⟩, 1, Or.inr (Or.inr rfl), ?_⟩
      rw [abs_le]
      push_cast
      constructor <;> norm_num at he he2 ⊢ <;> linarith
    · rw [if_neg h2]
      push_neg at h2
      refine ⟨⟨h2, h1⟩, 0, Or.inr (Or.inl rfl), ?_⟩
      rw [abs_le]
      push_cast
      constructor <;> norm_num at he ⊢ <;> linarith

theorem roundF32_near_pos (x y : ℚ) (n : Nat) (m : Int) (h0 : 0 < x)
    (h1 : (2 : ℚ) ^ 23 ≤ x * 2 ^ n) (h2 : x * 2 ^ n < (2 : ℚ) ^ 24)
    (hm1 : x * 2 ^ n - m < 1 / 2) (hm2 : (m : ℚ) - x * 2 ^ n < 1 / 2)
    (hy : y = (m : ℚ) / 2 ^ n) : roundF32 x = y := by
  rw [hy]
  apply roundF32_eq_of_scaled x n m
  · rw [abs_of_pos h0]; exact h1
  · rw [abs_of_pos h0]; exact h2
  · rw [abs_lt]; constructor <;> linarith

theorem roundF32_near_neg (x y : ℚ) (n : Nat) (m : Int) (h0 : x < 0)
    (h1 : (2 : ℚ) ^ 23 ≤ -x * 2 ^ n) (h2 : -x * 2 ^ n < (2 : ℚ) ^ 24)
    (hm1 : x * 2 ^ n - m < 1 / 2) (hm2 : (m : ℚ) - x * 2 ^ n < 1 / 2)
    (hy : y = (m : ℚ) / 2 ^ n) : roundF32 x = y := by
  rw [hy]
  apply roundF32_eq_of_scaled x n m
  · rw [abs_of_neg h0]; exact h1
  · rw [abs_of_neg h0]; exact h2
  · rw [abs_lt]; constructor <;> linarith

theorem normalizedAngleF32_eval (g d : Int) (v a : ℚ)
    (hv : roundF32 ((g + d : Int) : ℚ) = v) (ha : roundF32 (v / 10) = a) (h0 : 0 ≤ a) :
    normalizedAngleF32 g d = a := by
  unfold normalizedAngleF32
  dsimp only
  rw [hv, ha, if_neg (not_lt.mpr h0)]

theorem fixRolloverF32_high (r d : ℚ) (h1 : r > 180) (hd : roundF32 (r - 360) = d)
    (h2 : -180 ≤ d) : fixRolloverF32 r = d := by
  unfold fixRolloverF32
  dsimp only
  rw [if_pos h1, hd, if_neg (not_lt.mpr h2)]

theorem fixRolloverF32_low (r d : ℚ) (h1 : r < -180) (hd : roundF32 (r + 360) = d) :
    fixRolloverF32 r = d := by
  unfold fixRolloverF32
  dsimp only
  have hn : ¬ r > 180 := by
    intro h
    linarith
  rw [if_neg hn, if_pos h1, hd]

theorem fixRolloverF32_mid (r : ℚ) (h1 : r ≤ 180) (h2 : -180 ≤ r) : fixRolloverF32 r = r := by
  unfold fixRolloverF32
  dsimp only
  rw [if_neg (not_lt.mpr h1), if_neg (not_lt.mpr h2)]

theorem GyroTaskTickF32_eval (s : TaskState) (i : TickInput) (a r d b : ℚ)
    (hc : ¬ (i.nSysTime - s.nSysTimeOffset > 250))
    (ha : normalizedAngleF32 i.gyro_value s.theGyro.drift_error = a)
    (hr : roundF32 (a - s.old_angle) = r) (hd : fixRolloverF32 r = d)
    (hb : roundF32 (s.theGyro.abs_angle + d) = b) :
    GyroTaskTickF32 s i
      = ⟨⟨s.theGyro.port, true, a, b, s.theGyro.drift_error⟩, s.lastDriftGyro, a, d,
          s.nSysTimeOffset⟩ := by
  have hdf : driftFilter s i = s := by
    unfold driftFilter
    rw [if_neg hc]
  unfold GyroTaskTickF32 tickAngleF32
  rw [hdf, ha]
  unfold storeAbsAngleF32 storeAngle storeValid
  dsimp only
  rw [hr, hd, hb]

theorem GyroTaskF32_two (g : gyroData) (t : Int) (i j : TickInput) :
    GyroTaskF32 g t [i, j] = GyroTaskTickF32 (GyroTaskF32 g t [i]) j := rfl

theorem GyroTaskF32_one (g : gyroData) (t : Int) (i : TickInput) :
    GyroTaskF32 g t [i] = GyroTaskTickF32 (GyroTaskStart g t) i := rfl

theorem run_359_1 :
    GyroTaskF32 theGyroZero 0 [⟨3590, 20, 20⟩] = ⟨⟨0, true, 359, -1, 0⟩, 0, 359, -1, 0⟩ ∧
    GyroTaskF32 theGyroZero 0 [⟨3590, 20, 20⟩, ⟨10, 40, 40⟩]
      = ⟨⟨0, true, 1, 1, 0⟩, 0, 1, 2, 0⟩ := by
  have r1 : roundF32 (-1) = -1 :=
    roundF32_near_neg _ _ 23 (-8388608) (by norm_num) (by norm_num) (by norm_num)
      (by norm_num) (by norm_num) (by norm_num)
  have r359 : roundF32 359 = 359 :=
    roundF32_near_pos _ _ 15 11763712 (by norm_num) (by norm_num) (by norm_num)
      (by norm_num) (by norm_num) (by norm_num)
  have p1 : roundF32 1 = 1 :=
    roundF32_near_pos _ _ 23 8388608 (by norm_num) (by norm_num) (by norm_num)
      (by norm_num) (by norm_num) (by norm_num)
  have h1 : GyroTaskF32 theGyroZero 0 [⟨3590, 20, 20⟩]
      = ⟨⟨0, true, 359, -1, 0⟩, 0, 359, -1, 0⟩ := by
    rw [GyroTaskF32_one]
    exact GyroTaskTickF32_eval (GyroTaskStart theGyroZero 0) ⟨3590, 20, 20⟩ 359 359 (-1) (-1)
      (by decide)
      (normalizedAngleF32_eval _ _ 3590 359
        (roundF32_near_pos _ _ 12 14704640 (by norm_num [GyroTaskStart]) (by norm_num [GyroTaskStart, theGyroZero])
          (by norm_num [GyroTaskStart, theGyroZero]) (by norm_num [GyroTaskStart, theGyroZero]) (by norm_num [GyroTaskStart, theGyroZero]) (by norm_num))
        (by norm_num; exact r359) (by norm_num))
      (by norm_num [GyroTaskStart]; exact r359)
      (fixRolloverF32_high _ _ (by norm_num) (by norm_num; exact r1) (by norm_num))
      (by norm_num [GyroTaskStart, theGyroZero]; exact r1)
  refine ⟨h1, ?_⟩
  rw [GyroTaskF32_two, h1]
  exact GyroTaskTickF32_eval _ ⟨10, 40, 40⟩ 1 (-358) 2 1
    (by decide)
    (normalizedAngleF32_eval _ _ 10 1
      (roundF32_near_pos _ _ 20 10485760 (by norm_num) (by norm_num)
        (by norm_num) (by norm_num) (by norm_num) (by norm_num))
      (by norm_num; exact p1) (by norm_num))
    (roundF32_near_neg _ _ 15 (-11730944) (by norm_num) (by norm_num)
        (by norm_num) (by norm_num) (by norm_num) (by norm_num))
    (fixRolloverF32_low _ _ (by norm_num)
      (roundF32_near_pos _ _ 22 8388608 (by norm_num) (by norm_num)
        (by norm_num) (by norm_num) (by norm_num) (by norm_num)))
    (by norm_num; exact p1)

theorem run_2_358 :
    GyroTaskF32 theGyroZero 0 [⟨20, 20, 20⟩] = ⟨⟨0, true, 2, 2, 0⟩, 0, 2, 2, 0⟩ ∧
    GyroTaskF32 theGyroZero 0 [⟨20, 20, 20⟩, ⟨3580, 40, 40⟩]
      = ⟨⟨0, true, 358, -2, 0⟩, 0, 358, -4, 0⟩ := by
  have p2 : roundF32 2 = 2 :=
    roundF32_near_pos _ _ 22 8388608 (by norm_num) (by norm_num) (by norm_num)
      (by norm_num) (by norm_num) (by norm_num)
  have p358 : roundF32 358 = 358 :=
    roundF32_near_pos _ _ 15 11730944 (by norm_num) (by norm_num) (by norm_num)
      (by norm_num) (by norm_num) (by norm_num)
  have h1 : GyroTaskF32 theGyroZero 0 [⟨20, 20, 20⟩] = ⟨⟨0, true, 2, 2, 0⟩, 0, 2, 2, 0⟩ := by
    rw [GyroTaskF32_one]
    exact GyroTaskTickF32_eval (GyroTaskStart theGyroZero 0) ⟨20, 20, 20⟩ 2 2 2 2
      (by decide)
      (normalizedAngleF32_eval _ _ 20 2
        (roundF32_near_pos _ _ 19 10485760 (by norm_num [GyroTaskStart])
          (by norm_num [GyroTaskStart, theGyroZero]) (by norm_num [GyroTaskStart, theGyroZero])
          (by norm_num [GyroTaskStart, theGyroZero]) (by norm_num [GyroTaskStart, theGyroZero])
          (by norm_num))
        (by norm_num; exact p2) (by norm_num))
      (by norm_num [GyroTaskStart]; exact p2)
      (fixRolloverF32_mid _ (by norm_num) (by norm_num))
      (by norm_num [GyroTaskStart, theGyroZero]; exact p2)
  refine ⟨h1, ?_⟩
  rw [GyroTaskF32_two, h1]
  exact GyroTaskTickF32_eval _ ⟨3580, 40, 40⟩ 358 356 (-4) (-2)
    (by decide)
    (normalizedAngleF32_eval _ _ 3580 358
      (roundF32_near_pos _ _ 12 14663680 (by norm_num) (by norm_num)
        (by norm_num) (by norm_num) (by norm_num) (by norm_num))
      (by norm_num; exact p358) (by norm_num))
    (roundF32_near_pos _ _ 15 11665408 (by norm_num) (by norm_num)
        (by norm_num) (by norm_num) (by norm_num) (by norm_num))
    (fixRolloverF32_high _ _ (by norm_num)
      (roundF32_near_neg _ _ 21 (-8388608) (by norm_num) (by norm_num)
        (by norm_num) (by norm_num) (by norm_num) (by norm_num))
      (by norm_num))
    (roundF32_near_neg _ _ 22 (-8388608) (by norm_num) (by norm_num)
        (by norm_num) (by norm_num) (by norm_num) (by norm_num))

theorem run_3599_1 :
    GyroTaskF32 theGyroZero 0 [⟨3599, 20, 20⟩]
      = ⟨⟨0, true, 11793203 / 32768, -3277 / 32768, 0⟩, 0, 11793203 / 32768,
          -3277 / 32768, 0⟩ ∧
    GyroTaskF32 theGyroZero 0 [⟨3599, 20, 20⟩, ⟨1, 40, 40⟩]
      = ⟨⟨0, true, 13421773 / 134217728, 3277 / 32768, 0⟩, 0, 13421773 / 134217728,
          3277 / 16384, 0⟩ := by
  have hp : roundF32 (11793203 / 32768) = 11793203 / 32768 :=
    roundF32_near_pos _ _ 15 11793203 (by norm_num) (by norm_num) (by norm_num)
      (by norm_num) (by norm_num) (by norm_num)
  have hm : roundF32 (-(3277 / 32768)) = -(3277 / 32768) :=
    roundF32_near_neg _ _ 27 (-13422592) (by norm_num) (by norm_num) (by norm_num)
      (by norm_num) (by norm_num) (by norm_num)
  have p1 : roundF32 1 = 1 :=
    roundF32_near_pos _ _ 23 8388608 (by norm_num) (by norm_num) (by norm_num)
      (by norm_num) (by norm_num) (by norm_num)
  have h1 : GyroTaskF32 theGyroZero 0 [⟨3599, 20, 20⟩]
      = ⟨⟨0, true, 11793203 / 32768, -3277 / 32768, 0⟩, 0, 11793203 / 32768,
          -3277 / 32768, 0⟩ := by
    rw [GyroTaskF32_one]
    exact GyroTaskTickF32_eval (GyroTaskStart theGyroZero 0) ⟨3599, 20, 20⟩
      (11793203 / 32768) (11793203 / 32768) (-3277 / 32768) (-3277 / 32768)
      (by decide)
      (normalizedAngleF32_eval _ _ 3599 (11793203 / 32768)
        (roundF32_near_pos _ _ 12 14741504 (by norm_num [GyroTaskStart])
          (by norm_num [GyroTaskStart, theGyroZero]) (by norm_num [GyroTaskStart, theGyroZero])
          (by norm_num [GyroTaskStart, theGyroZero]) (by norm_num [GyroTaskStart, theGyroZero])
          (by norm_num))
        (roundF32_near_pos _ _ 15 11793203 (by norm_num) (by norm_num) (by norm_num)
          (by norm_num) (by norm_num) (by norm_num))
        (by norm_num))
      (by norm_num [GyroTaskStart]; exact hp)
      (fixRolloverF32_high _ _ (by norm_num) (by norm_num; exact hm) (by norm_num))
      (by norm_num [GyroTaskStart, theGyroZero]; exact hm)
  refine ⟨h1, ?_⟩
  rw [GyroTaskF32_two, h1]
  exact GyroTaskTickF32_eval _ ⟨1, 40, 40⟩
    (13421773 / 134217728) (-5894963 / 16384) (3277 / 16384) (3277 / 32768)
    (by decide)
    (normalizedAngleF32_eval _ _ 1 (13421773 / 134217728)
      (by norm_num; exact p1)
      (roundF32_near_pos _ _ 27 13421773 (by norm_num) (by norm_num) (by norm_num)
        (by norm_num) (by norm_num) (by norm_num))
      (by norm_num))
    (roundF32_near_neg _ _ 15 (-11789926) (by norm_num) (by norm_num)
        (by norm_num) (by norm_num) (by norm_num) (by norm_num))
    (fixRolloverF32_low _ _ (by norm_num)
      (roundF32_near_pos _ _ 26 13422592 (by norm_num) (by norm_num)
        (by norm_num) (by norm_num) (by norm_num) (by norm_num)))
    (roundF32_near_pos _ _ 27 13422592 (by norm_num) (by norm_num)
        (by norm_num) (by norm_num) (by norm_num) (by norm_num))

theorem GyroTaskTickF32_delta_angle (s : TaskState) (i : TickInput) :
    (GyroTaskTickF32 s i).delta_angle
      = fixRolloverF32 (roundF32 (tickAngleF32 s i - s.old_angle)) := by
  simp [GyroTaskTickF32, storeValid, storeAbsAngleF32, storeAngle, driftFilter_old_angle]

theorem GyroTaskTickF32_abs_angle (s : TaskState) (i : TickInput) :
    (GyroTaskTickF32 s i).theGyro.abs_angle
      = roundF32 (s.theGyro.abs_angle
          + fixRolloverF32 (roundF32 (tickAngleF32 s i - s.old_angle))) := by
  simp [GyroTaskTickF32, storeValid, storeAbsAngleF32, storeAngle, driftFilter_old_angle,
    driftFilter_abs_angle]

/-- C3: in `float` arithmetic the readings 3599 and 1 give the headings
11793203 / 32768 (359.899994) and 13421773 / 134217728 (0.1), both in
[0, 360), and the delta added to `abs_angle` is 3277 / 16384 (0.200012207),
which is not the heading change plus 360 * k for any integer k. -/
theorem rollover_not_exact :
    (GyroTaskF32 theGyroZero 0 [⟨3599, 20, 20⟩]).theGyro.angle = 11793203 / 32768 ∧
    (GyroTaskF32 theGyroZero 0 [⟨3599, 20, 20⟩, ⟨1, 40, 40⟩]).theGyro.angle
      = 13421773 / 134217728 ∧
    ((0 : ℚ) ≤ 11793203 / 32768 ∧ (11793203 / 32768 : ℚ) < 360) ∧
    ((0 : ℚ) ≤ 13421773 / 134217728 ∧ (13421773 / 134217728 : ℚ) < 360) ∧
    (GyroTaskF32 theGyroZero 0 [⟨3599, 20, 20⟩, ⟨1, 40, 40⟩]).delta_angle = 3277 / 16384 ∧
    (GyroTaskF32 theGyroZero 0 [⟨3599, 20, 20⟩, ⟨1, 40, 40⟩]).theGyro.abs_angle
      = roundF32 ((GyroTaskF32 theGyroZero 0 [⟨3599, 20, 20⟩]).theGyro.abs_angle
          + 3277 / 16384) ∧
    ∀ k : Int, (3277 / 16384 : ℚ)
      ≠ 13421773 / 134217728 - 11793203 / 32768 + 360 * (k : ℚ) := by
  have h := run_3599_1
  refine ⟨by rw [h.1], by rw [h.2], by norm_num, by norm_num, by rw [h.2], ?_, ?_⟩
  · rw [h.1, h.2]
    symm
    exact roundF32_near_pos _ _ 27 13422592 (by norm_num) (by norm_num) (by norm_num)
      (by norm_num) (by norm_num) (by norm_num)
  · intro k hk
    have h1 : (48318382080 : ℚ) * (k : ℚ) = 48318382899 := by linarith
    have h2 : (48318382080 : Int) * k = 48318382899 := by exact_mod_cast h1
    omega

/-- C3 (amended): the wrap correction in `GyroTask` selects the shortest
signed path up to the rounding of `float` arithmetic. For every previous
heading `old_angle` and current heading both in [0, 360), the delta added to
`abs_angle` lies in [-180, 180] and is within 1 / 16384 of the heading change
plus 360 * k for some k in {-1, 0, 1}; with the angles taken as exact
rationals it equals the heading change plus 360 * k; and on a run the heading
step 359.0 -> 1.0 yields delta +2.0 and the step 2.0 -> 358.0 yields delta
-4.0 exactly. -/
theorem rollover_shortest_path_rounded (s : TaskState) (i : TickInput)
    (hp : 0 ≤ s.old_angle ∧ s.old_angle < 360)
    (hh : 0 ≤ tickAngleF32 s i ∧ tickAngleF32 s i < 360) :
    ((GyroTaskTickF32 s i).theGyro.abs_angle
        = roundF32 (s.theGyro.abs_angle + (GyroTaskTickF32 s i).delta_angle) ∧
      -180 ≤ (GyroTaskTickF32 s i).delta_angle ∧ (GyroTaskTickF32 s i).delta_angle ≤ 180 ∧
      ∃ k : Int, (k = -1 ∨ k = 0 ∨ k = 1) ∧
        |(GyroTaskTickF32 s i).delta_angle
            - (tickAngleF32 s i - s.old_angle + 360 * (k : ℚ))| ≤ 1 / 16384) ∧
    (∀ (s1 : TaskState) (i1 : TickInput),
      0 ≤ s1.old_angle ∧ s1.old_angle < 360 → 0 ≤ tickAngle s1 i1 ∧ tickAngle s1 i1 < 360 →
      (GyroTaskTick s1 i1).theGyro.abs_angle
          = s1.theGyro.abs_angle + (GyroTaskTick s1 i1).delta_angle ∧
        (∃ k : Int, (k = -1 ∨ k = 0 ∨ k = 1) ∧
          (GyroTaskTick s1 i1).delta_angle
            = tickAngle s1 i1 - s1.old_angle + 360 * (k : ℚ)) ∧
        -180 ≤ (GyroTaskTick s1 i1).delta_angle ∧ (GyroTaskTick s1 i1).delta_angle ≤ 180) ∧
    ((GyroTaskF32 theGyroZero 0 [⟨3590, 20, 20⟩]).theGyro.angle = 359 ∧
      (GyroTaskF32 theGyroZero 0 [⟨3590, 20, 20⟩, ⟨10, 40, 40⟩]).theGyro.angle = 1 ∧
      (GyroTaskF32 theGyroZero 0 [⟨3590, 20, 20⟩, ⟨10, 40, 40⟩]).delta_angle = 2 ∧
      (GyroTaskF32 theGyroZero 0 [⟨3590, 20, 20⟩, ⟨10, 40, 40⟩]).theGyro.abs_angle
        = (GyroTaskF32 theGyroZero 0 [⟨3590, 20, 20⟩]).theGyro.abs_angle + 2) ∧
    ((GyroTaskF32 theGyroZero 0 [⟨20, 20, 20⟩]).theGyro.angle = 2 ∧
      (GyroTaskF32 theGyroZero 0 [⟨20, 20, 20⟩, ⟨3580, 40, 40⟩]).theGyro.angle = 358 ∧
      (GyroTaskF32 theGyroZero 0 [⟨20, 20, 20⟩, ⟨3580, 40, 40⟩]).delta_angle = -4 ∧
      (GyroTaskF32 theGyroZero 0 [⟨20, 20, 20⟩, ⟨3580, 40, 40⟩]).theGyro.abs_angle
        = (GyroTaskF32 theGyroZero 0 [⟨20, 20, 20⟩]).theGyro.abs_angle + -4) := by
  have hx : -360 < tickAngleF32 s i - s.old_angle ∧ tickAngleF32 s i - s.old_angle < 360 :=
    ⟨by linarith [hp.2, hh.1], by linarith [hp.1, hh.2]⟩
  have hf := fixRolloverF32_roundF32 _ hx
  have hA := run_359_1
  have hB := run_2_358
  refine ⟨⟨?_, ?_, ?_, ?_⟩, ?_, ?_, ?_⟩
  · rw [GyroTaskTickF32_abs_angle, GyroTaskTickF32_delta_angle]
  · rw [GyroTaskTickF32_delta_angle]; exact hf.1.1
  · rw [GyroTaskTickF32_delta_angle]; exact hf.1.2
  · rw [GyroTaskTickF32_delta_angle]; exact hf.2
  · intro s1 i1 hp1 hh1
    have h := (rollover_shortest_path s1 i1 hp1 hh1).1
    exact ⟨h.1, h.2.1, h.2.2.1, h.2.2.2⟩
  · rw [hA.1, hA.2]
    norm_num
  · rw [hB.1, hB.2]
    norm_num

/-- C3 (witness): the tick that takes the `float` heading from 359.899994 to
0.1, where the delta is 0.200012207. -/
theorem rollover_shortest_path_rounded_witness :
    (0 ≤ (⟨⟨0, true, 11793203 / 32768, -3277 / 32768, 0⟩, 0, 11793203 / 32768,
          -3277 / 32768, 0⟩ : TaskState).old_angle ∧
      (⟨⟨0, true, 11793203 / 32768, -3277 / 32768, 0⟩, 0, 11793203 / 32768,
          -3277 / 32768, 0⟩ : TaskState).old_angle < 360) ∧
    (0 ≤ tickAngleF32 ⟨⟨0, true, 11793203 / 32768, -3277 / 32768, 0⟩, 0, 11793203 / 32768,
          -3277 / 32768, 0⟩ ⟨1, 40, 40⟩ ∧
      tickAngleF32 ⟨⟨0, true, 11793203 / 32768, -3277 / 32768, 0⟩, 0, 11793203 / 32768,
          -3277 / 32768, 0⟩ ⟨1, 40, 40⟩ < 360) ∧
    -180 ≤ (GyroTaskTickF32 ⟨⟨0, true, 11793203 / 32768, -3277 / 32768, 0⟩, 0,
        11793203 / 32768, -3277 / 32768, 0⟩ ⟨1, 40, 40⟩).delta_angle ∧
    (GyroTaskTickF32 ⟨⟨0, true, 11793203 / 32768, -3277 / 32768, 0⟩, 0,
        11793203 / 32768, -3277 / 32768, 0⟩ ⟨1, 40, 40⟩).delta_angle ≤ 180 := by
  have ht : tickAngleF32 ⟨⟨0, true, 11793203 / 32768, -3277 / 32768, 0⟩, 0, 11793203 / 32768,
      -3277 / 32768, 0⟩ ⟨1, 40, 40⟩ = 13421773 / 134217728 := by
    have hc : ¬ ((40 : Int) - 0 > 250) := by decide
    unfold tickAngleF32 driftFilter
    rw [if_neg hc]
    exact normalizedAngleF32_eval _ _ 1 (13421773 / 134217728)
      (by
        norm_num
        exact roundF32_near_pos _ _ 23 8388608 (by norm_num) (by norm_num) (by norm_num)
          (by norm_num) (by norm_num) (by norm_num))
      (roundF32_near_pos _ _ 27 13421773 (by norm_num) (by norm_num) (by norm_num)
        (by norm_num) (by norm_num) (by norm_num))
      (by norm_num)
  have hp : 0 ≤ (⟨⟨0, true, 11793203 / 32768, -3277 / 32768, 0⟩, 0, 11793203 / 32768,
        -3277 / 32768, 0⟩ : TaskState).old_angle ∧
      (⟨⟨0, true, 11793203 / 32768, -3277 / 32768, 0⟩, 0, 11793203 / 32768,
        -3277 / 32768, 0⟩ : TaskState).old_angle < 360 := by
    constructor <;> norm_num
  have hh : 0 ≤ tickAngleF32 ⟨⟨0, true, 11793203 / 32768, -3277 / 32768, 0⟩, 0,
        11793203 / 32768, -3277 / 32768, 0⟩ ⟨1, 40, 40⟩ ∧
      tickAngleF32 ⟨⟨0, true, 11793203 / 32768, -3277 / 32768, 0⟩, 0, 11793203 / 32768,
        -3277 / 32768, 0⟩ ⟨1, 40, 40⟩ < 360 := by
    rw [ht]
    constructor <;> norm_num
  have h := (rollover_shortest_path_rounded _ _ hp hh).1
  exact ⟨hp, hh, h.2.1, h.2.2.1⟩

end GyroLib
